import Mathlib

/-!
Verification development for the round-generation and input-resolution engine
of the `oh-life` letter-clicking game (source: `src/components/GamePlay.tsx`).

Numeric values computed by the game (coordinates, sizes, distances) are
embedded as rationals (`ℚ`); the JavaScript `Math.sqrt`-based distance
comparison `sqrt((x-cx)^2 + (y-cy)^2) < minDistance` is embedded as the
equivalent squared comparison `(x-cx)^2 + (y-cy)^2 < minDistance^2`
(equivalent because both sides are non-negative).  `Math.random()` is embedded
as an injected stream of rationals (`List ℚ`), each expected to lie in
`[0, 1)`; a stream that runs out yields `0`, which is also in `[0, 1)`.
-/

namespace OhLife

/-- The fixed letter alphabet (`LETTERS` in the source). -/
def LETTERS : List Char :=
  ['b', 'c', 'd', 'e', 'f', 'g', 'h', 'k', 'm', 'n', 'p', 'r', 's', 't', 'w', 'x', 'y', 'z']

/-- Number of circles per round (`CIRCLES_PER_ROUND` in the source). -/
def CIRCLES_PER_ROUND : ℕ := 15

/-- Visual feedback state of a circle. -/
inductive Feedback where
  | correct
  | incorrect
deriving DecidableEq, Repr

/-- One placed clickable circle (the `Circle` type in the source). -/
structure Circle where
  id : ℕ
  letter : Char
  x : ℚ
  y : ℚ
  feedback : Option Feedback := none
deriving DecidableEq, Repr

/-- Pop the next value off the random stream; an exhausted stream yields `0`
(a value `Math.random()` can produce). -/
def next : List ℚ → ℚ × List ℚ
  | [] => (0, [])
  | r :: rs => (r, rs)

/-- The source's `randomNumber(min, max)`:
`Math.floor(Math.random() * (max - min + 1)) + min`, with the random draw `r`
made explicit. -/
def randomNumber (r lo hi : ℚ) : ℚ := (⌊r * (hi - lo + 1)⌋ : ℤ) + lo

/-- Floor of a rational (`Math.floor`), clamped to `ℕ` (used where the source indexes
an array with the floored value; for `r ∈ [0,1)` the floor is non-negative,
so the clamp never fires there). -/
def ratFloorNat (q : ℚ) : ℕ := (⌊q⌋ : ℤ).toNat

/-- The source's `wouldOverlap(x, y, existingCircles)`: true iff some
existing circle's center is at Euclidean distance `< md` (stated on squares). -/
def wouldOverlap (md x y : ℚ) (existing : List Circle) : Bool :=
  existing.any fun c =>
    decide ((x - c.x) * (x - c.x) + (y - c.y) * (y - c.y) < md * md)

/-- The inset play rectangle `[minX, maxX] × [minY, maxY]`. -/
structure Bounds where
  minX : ℚ
  maxX : ℚ
  minY : ℚ
  maxY : ℚ
deriving DecidableEq, Repr

/-- The inset play-rectangle bounds computed at the top of
`generateValidPosition` (play area `85%` of width / `70%` of height, `15%`
top offset, `5%` edge safe area, all from the source constants). -/
def computeBounds (cs w h : ℚ) : Bounds :=
  let playAreaWidth := w * (17 / 20)
  let playAreaHeight := h * (7 / 10)
  let offsetX := (w - playAreaWidth) / 2
  let offsetY := h * (3 / 20)
  let safeAreaX := w * (1 / 20)
  let safeAreaY := h * (1 / 20)
  { minX := offsetX + max (cs / 2) safeAreaX
    maxX := offsetX + playAreaWidth - max (cs / 2) safeAreaX
    minY := offsetY + max (cs / 2) safeAreaY
    maxY := offsetY + playAreaHeight - max (cs / 2) safeAreaY }

/-- Tier 0 of `generateValidPosition`: the `while (attempts < maxAttempts)`
loop drawing random candidates, with the attempt budget as fuel. -/
def tryRandomAttempts (md mnX mxX mnY mxY : ℚ) (existing : List Circle) :
    ℕ → List ℚ → Option (ℚ × ℚ) × List ℚ
  | 0, rs => (none, rs)
  | n + 1, rs =>
    let r1 := (next rs).1
    let rs1 := (next rs).2
    let r2 := (next rs1).1
    let rs2 := (next rs1).2
    let x := randomNumber r1 mnX mxX
    let y := randomNumber r2 mnY mxY
    if wouldOverlap md x y existing then
      tryRandomAttempts md mnX mxX mnY mxY existing n rs2
    else
      (some (x, y), rs2)

/-- Ceiling square root, `Math.ceil(Math.sqrt n)`, for a natural number `n`. -/
def ceilSqrt (n : ℕ) : ℕ :=
  if Nat.sqrt n * Nat.sqrt n = n then Nat.sqrt n else Nat.sqrt n + 1

/-- X coordinate of the grid cell center in column `col` (tier 1). -/
def gridCellX (mnX cw : ℚ) (col : ℕ) : ℚ := mnX + col * cw + cw / 2

/-- Y coordinate of the grid cell center in row `row` (tier 1). -/
def gridCellY (mnY ch : ℚ) (row : ℕ) : ℚ := mnY + row * ch + ch / 2

/-- Inner `for (col ...)` loop of the tier-1 grid scan: the first column in
the given list whose cell center does not overlap. -/
def scanCols (md : ℚ) (existing : List Circle) (mnX cw y : ℚ) : List ℕ → Option ℚ
  | [] => none
  | col :: cols =>
    let x := gridCellX mnX cw col
    if wouldOverlap md x y existing then scanCols md existing mnX cw y cols
    else some x

/-- Outer `for (row ...)` loop of the tier-1 grid scan (row-major order). -/
def scanRows (md : ℚ) (existing : List Circle) (mnX cw mnY ch : ℚ) (g : ℕ) :
    List ℕ → Option (ℚ × ℚ)
  | [] => none
  | row :: rows =>
    let y := gridCellY mnY ch row
    match scanCols md existing mnX cw y (List.range g) with
    | some x => some (x, y)
    | none => scanRows md existing mnX cw mnY ch g rows

/-- The source's `generateValidPosition(existingCircles, totalWidth, totalHeight)`, with the circle size `cs`, minimum distance `md` and random stream
made explicit parameters (they are closure variables in the source). -/
def generateValidPosition (cs md : ℚ) (existing : List Circle) (w h : ℚ)
    (rs : List ℚ) : (ℚ × ℚ) × List ℚ :=
  let b := computeBounds cs w h
  let mnX := b.minX
  let mxX := b.maxX
  let mnY := b.minY
  let mxY := b.maxY
  let t0 := tryRandomAttempts md mnX mxX mnY mxY existing 100 rs
  match t0.1 with
  | some p => (p, t0.2)
  | none =>
    let g := ceilSqrt (existing.length + 1) + 1
    let cw := (mxX - mnX) / g
    let ch := (mxY - mnY) / g
    match scanRows md existing mnX cw mnY ch g (List.range g) with
    | some p => (p, t0.2)
    | none =>
      let r1 := (next t0.2).1
      let rs1 := (next t0.2).2
      let r2 := (next rs1).1
      let rs2 := (next rs1).2
      ((randomNumber r1 mnX mxX, randomNumber r2 mnY mxY), rs2)

/-- The in-bounds double assignment
`[newArray[i], newArray[j]] = [newArray[j], newArray[i]]` from `shuffleArray`;
out-of-bounds indices (impossible for `Math.random()` draws in `[0,1)`) leave
the list unchanged. -/
def listSwap {α : Type} (l : List α) (i j : ℕ) : List α :=
  match l.get? i, l.get? j with
  | some a, some b => (l.set i b).set j a
  | _, _ => l

/-- The Fisher–Yates loop of `shuffleArray`: the first argument is the current
loop index `i` (the loop runs `i = length-1, ..., 1`), and at each step
`j = Math.floor(Math.random() * (i + 1))`. -/
def fyAux {α : Type} : ℕ → List α → List ℚ → List α × List ℚ
  | 0, l, rs => (l, rs)
  | i + 1, l, rs =>
    let r := (next rs).1
    let j := ratFloorNat (r * (((i + 1 : ℕ) : ℚ) + 1))
    fyAux i (listSwap l (i + 1) j) (next rs).2

/-- The source's `shuffleArray` (Fisher–Yates over a copy of the input). -/
def shuffleArray {α : Type} (rs : List ℚ) (l : List α) : List α × List ℚ :=
  fyAux (l.length - 1) l rs

/-- The `selectedLetters.forEach` loop of `generateNewRound`: places each
selected letter with `generateValidPosition` against the circles pushed so
far, appending `{ id: index, letter, x, y }`. -/
def placeCircles (cs md w h : ℚ) :
    List Char → ℕ → List Circle → List ℚ → List Circle × List ℚ
  | [], _, acc, rs => (acc, rs)
  | letter :: rest, idx, acc, rs =>
    let g := generateValidPosition cs md acc w h rs
    placeCircles cs md w h rest (idx + 1)
      (acc ++ [{ id := idx, letter := letter, x := g.1.1, y := g.1.2 }]) g.2

/-- The pure core of `generateNewRound`: shuffle the alphabet, take the first
`CIRCLES_PER_ROUND` letters, place them, and read the target letter at a
random index over the placed circles (`none` models the out-of-range
`newCircles[targetIndex]` access when no circle was placed). -/
def generateRoundData (alphabet : List Char) (cs md w h : ℚ) (rs : List ℚ) :
    (List Circle × Option Char) × List ℚ :=
  let sh := shuffleArray rs alphabet
  let selected := sh.1.take CIRCLES_PER_ROUND
  let pc := placeCircles cs md w h selected 0 [] sh.2
  let targetIndex := ratFloorNat ((next pc.2).1 * (pc.1.length : ℚ))
  ((pc.1, (pc.1.get? targetIndex).map (·.letter)), (next pc.2).2)

/-! ## The component state and event handlers -/

/-- A scheduled `setTimeout` callback, owned by the state machine.  The
callbacks are React closures: they read `gameActive`, `preparingNewRound`,
`width` and `height` as captured at the render in which they were created,
not at firing time, so each pending item carries those captured values.

`autoNewRound inc capA capP capW capH` is the feedback-duration callback of
`handleCircleClick` (it runs the captured `startAutomaticNewRound(inc)`
closure); `roundGen capA capP capW capH` is the settle-delay callback of
`startNewRound` / `startAutomaticNewRound` (it runs
`setProcessingClick(false); generateNewRound()` with the captured
`generateNewRound` closure); `finishRound t` is the delayed tail of
`generateNewRound` (it runs `setTargetLetter(t);
setPreparingNewRound(false)`); `reenableButton` re-enables the New Round
button after `handleNewRound`. -/
inductive Pending where
  | autoNewRound (inc : ℕ) (capA capP : Bool) (capW capH : ℚ)
  | roundGen (capA capP : Bool) (capW capH : ℚ)
  | finishRound (t : Char)
  | reenableButton
deriving DecidableEq, Repr

/-- The `GamePlay` component state relevant to the round engine. -/
structure GameState where
  circles : List Circle
  targetLetter : Option Char
  score : ℕ
  width : ℚ
  height : ℚ
  gameActive : Bool
  processingClick : Bool
  preparingNewRound : Bool
  newRoundButtonDisabled : Bool
  rng : List ℚ
  pending : List Pending
deriving Repr

/-- The responsive `circleSize` memo from the source. -/
def circleSize (w : ℚ) : ℚ :=
  if w = 0 then 48 else if w < 480 then 36 else if w < 768 then 44 else 48

/-- The memo `minDistance = circleSize * MIN_DISTANCE_MULTIPLIER` (`1.2 = 6/5`). -/
def minDistanceOf (w : ℚ) : ℚ := circleSize w * (6 / 5)

/-- The source's `generateNewRound` closure: its guard reads the captured
render values `capA` (`gameActive`) and `capP` (`preparingNewRound`), and the
round is generated for the captured `capW`/`capH` dimensions; on the guard
passing it sets `preparingNewRound`, builds the round from the current random
stream, commits the circles, and schedules the delayed target-letter commit.
(When no circle is placed the source would crash in the delayed callback; no
callback is scheduled in that unreachable case.) -/
def generateNewRound (capA capP : Bool) (capW capH : ℚ) (s : GameState) :
    GameState :=
  if capA = false ∨ capP = true then s
  else
    let cs := circleSize capW
    let md := minDistanceOf capW
    let gr := generateRoundData LETTERS cs md capW capH s.rng
    { s with
      preparingNewRound := true
      circles := gr.1.1
      rng := gr.2
      pending := s.pending ++ (match gr.1.2 with
        | some t => [Pending.finishRound t]
        | none => []) }

/-- The synchronous `generateNewRound()` call made by the init effect: the
captured render values coincide with the current state. -/
def generateNewRoundS (s : GameState) : GameState :=
  generateNewRound s.gameActive s.preparingNewRound s.width s.height s

/-- The source's `startNewRound(scoreIncrement)` (invoked synchronously by
`handleNewRound`, so its captured `preparingNewRound` coincides with the
current one): guard on `preparingNewRound`, set it, clear circles and target,
add the score increment when positive, and schedule the settle-delay callback
closing over the current render's `generateNewRound` closure. -/
def startNewRound (inc : ℕ) (s : GameState) : GameState :=
  if s.preparingNewRound = true then s
  else
    { s with
      preparingNewRound := true
      circles := []
      targetLetter := none
      score := if 0 < inc then s.score + inc else s.score
      pending := s.pending ++
        [Pending.roundGen s.gameActive s.preparingNewRound s.width s.height] }

/-- The source's `startAutomaticNewRound(scoreIncrement)` (same body as
`startNewRound`; the source duplicates it to skip the button animation).  It
is invoked from the feedback-duration timer, so it runs as the closure
captured at click time: its guard reads the captured `capP`, and the
settle-delay callback it schedules closes over the `generateNewRound`
closure of that same render (`capA`, `capP`, `capW`, `capH`). -/
def startAutomaticNewRound (inc : ℕ) (capA capP : Bool) (capW capH : ℚ)
    (s : GameState) : GameState :=
  if capP = true then s
  else
    { s with
      preparingNewRound := true
      circles := []
      targetLetter := none
      score := if 0 < inc then s.score + inc else s.score
      pending := s.pending ++ [Pending.roundGen capA capP capW capH] }

/-- The source's `handleNewRound`: guard on
`processingClick || preparingNewRound`, disable the button, run
`startNewRound(0)` and schedule the button re-enable. -/
def handleNewRound (s : GameState) : GameState :=
  if s.processingClick = true ∨ s.preparingNewRound = true then s
  else
    let s1 := { s with newRoundButtonDisabled := true }
    let s2 := startNewRound 0 s1
    { s2 with pending := s2.pending ++ [Pending.reenableButton] }

/-- The source's `handleCircleClick(circle)`: guard on
`!gameActive || processingClick || preparingNewRound || !targetLetter`,
set `processingClick`, mark the clicked circle's feedback by id, and schedule
the feedback-duration callback (`startAutomaticNewRound(1)` on a hit,
`startAutomaticNewRound(0)` on a miss), which closes over the current
render's values. -/
def handleCircleClick (s : GameState) (c : Circle) : GameState :=
  match s.targetLetter with
  | none => s
  | some t =>
    if s.gameActive = false ∨ s.processingClick = true ∨ s.preparingNewRound = true then s
    else if c.letter = t then
      { s with
        processingClick := true
        circles := s.circles.map fun x =>
          if x.id = c.id then { x with feedback := some Feedback.correct } else x
        pending := s.pending ++
          [Pending.autoNewRound 1 s.gameActive s.preparingNewRound s.width s.height] }
    else
      { s with
        processingClick := true
        circles := s.circles.map fun x =>
          if x.id = c.id then { x with feedback := some Feedback.incorrect } else x
        pending := s.pending ++
          [Pending.autoNewRound 0 s.gameActive s.preparingNewRound s.width s.height] }

/-- Run one scheduled callback, with the closure values it captured. -/
def fireTimer (p : Pending) (s : GameState) : GameState :=
  match p with
  | Pending.autoNewRound inc capA capP capW capH =>
    startAutomaticNewRound inc capA capP capW capH s
  | Pending.roundGen capA capP capW capH =>
    generateNewRound capA capP capW capH { s with processingClick := false }
  | Pending.finishRound t =>
    { s with targetLetter := some t, preparingNewRound := false }
  | Pending.reenableButton => { s with newRoundButtonDisabled := false }

/-- The round-start guard of the init `useEffect`: generate the first round
only when both dimensions are positive, no circles exist yet, no round is
being prepared and the game is active. -/
def initEffect (s : GameState) : GameState :=
  if 0 < s.width ∧ 0 < s.height ∧ s.circles = [] ∧
      s.preparingNewRound = false ∧ s.gameActive = true then
    generateNewRoundS s
  else s

/-- External events delivered to the component; `timer n` fires the `n`-th
scheduled callback (timers with different delays may fire in any order). -/
inductive Ev where
  | click (c : Circle)
  | newRoundBtn
  | timer (n : ℕ)
  | resize (w h : ℚ)
  | effect
  | showSubmit
deriving Repr

/-- One step of the event-driven state machine. -/
def step (s : GameState) : Ev → GameState
  | Ev.click c => handleCircleClick s c
  | Ev.newRoundBtn => handleNewRound s
  | Ev.timer n =>
    match s.pending.get? n with
    | some p => fireTimer p { s with pending := s.pending.eraseIdx n }
    | none => s
  | Ev.resize w h => { s with width := w, height := h }
  | Ev.effect => initEffect s
  | Ev.showSubmit => { s with gameActive := false }

/-- Run a sequence of events. -/
def run (s : GameState) (evs : List Ev) : GameState := evs.foldl step s

/-- The freshly mounted component state: no circles, no target, score `0`,
game active, no click being processed, no round being prepared. -/
def init (w h : ℚ) (rng : List ℚ) : GameState :=
  { circles := []
    targetLetter := none
    score := 0
    width := w
    height := h
    gameActive := true
    processingClick := false
    preparingNewRound := false
    newRoundButtonDisabled := false
    rng := rng
    pending := [] }

/-! ## Claim C1: click resolution (hit / miss) -/

theorem handleCircleClick_processing (s : GameState) (c : Circle) (t : Char)
    (hA : s.gameActive = true) (hP : s.processingClick = false)
    (hR : s.preparingNewRound = false) (hT : s.targetLetter = some t) :
    (handleCircleClick s c).processingClick = true := by
  rw [handleCircleClick, hT]
  by_cases hlt : c.letter = t <;> simp [hA, hP, hR, hlt]

/-- Claim C1: For every click delivered while the game is active, no click is
being processed, no new round is being prepared and a target letter is
defined: the controller enters the resolving state (`processingClick` set) and
the click itself leaves the score unchanged; the clicked circle's feedback is
set to `correct` when its letter equals the target and `incorrect` otherwise
(all other circles keep their fields); a hit schedules the transition
`startAutomaticNewRound 1` (closing over the captured `preparingNewRound =
false`), which increments the score by exactly `1` when it runs, while a miss
schedules `startAutomaticNewRound 0`, which never changes the score. -/
theorem c1_click_resolution (s : GameState) (c : Circle) (t : Char)
    (hA : s.gameActive = true) (hP : s.processingClick = false)
    (hR : s.preparingNewRound = false) (hT : s.targetLetter = some t) :
    (handleCircleClick s c).processingClick = true ∧
    (handleCircleClick s c).score = s.score ∧
    (handleCircleClick s c).circles.length = s.circles.length ∧
    (∀ i x, s.circles.get? i = some x →
      (handleCircleClick s c).circles.get? i = some
        { x with feedback :=
            if x.id = c.id then
              some (if c.letter = t then Feedback.correct else Feedback.incorrect)
            else x.feedback }) ∧
    (c.letter = t →
      (handleCircleClick s c).pending =
        s.pending ++ [Pending.autoNewRound 1 true false s.width s.height] ∧
      ∀ (capA : Bool) (capW capH : ℚ) (u : GameState),
        (startAutomaticNewRound 1 capA false capW capH u).score = u.score + 1) ∧
    (c.letter ≠ t →
      (handleCircleClick s c).pending =
        s.pending ++ [Pending.autoNewRound 0 true false s.width s.height] ∧
      ∀ (capA capP : Bool) (capW capH : ℚ) (u : GameState),
        (startAutomaticNewRound 0 capA capP capW capH u).score = u.score) := by
  have hcc : handleCircleClick s c =
      if c.letter = t then
        { s with
          processingClick := true
          circles := s.circles.map fun x =>
            if x.id = c.id then { x with feedback := some Feedback.correct } else x
          pending := s.pending ++
            [Pending.autoNewRound 1 s.gameActive s.preparingNewRound s.width s.height] }
      else
        { s with
          processingClick := true
          circles := s.circles.map fun x =>
            if x.id = c.id then { x with feedback := some Feedback.incorrect } else x
          pending := s.pending ++
            [Pending.autoNewRound 0 s.gameActive s.preparingNewRound s.width s.height] } := by
    rw [handleCircleClick, hT]
    simp [hA, hP, hR]
  by_cases hlt : c.letter = t
  · rw [hcc, if_pos hlt]
    refine ⟨rfl, rfl, by simp, ?_, fun _ => ⟨by rw [hA, hR], ?_⟩, fun h => absurd hlt h⟩
    · intro i x hx
      simp only [List.get?_map, hx, Option.map_some]
      by_cases hid : x.id = c.id <;> simp [hid, hlt]
    · intro capA capW capH u
      simp [startAutomaticNewRound]
  · rw [hcc, if_neg hlt]
    refine ⟨rfl, rfl, by simp, ?_, fun h => absurd h hlt, fun _ => ⟨by rw [hA, hR], ?_⟩⟩
    · intro i x hx
      simp only [List.get?_map, hx, Option.map_some]
      by_cases hid : x.id = c.id <;> simp [hid, hlt]
    · intro capA capP capW capH u
      by_cases hu : capP = true <;> simp [startAutomaticNewRound, hu]

/-- Witness for C1 at a concrete active state and a matching click. -/
def sampleCircleB : Circle := { id := 0, letter := 'b', x := 100, y := 200 }

/-- A second concrete circle, not matching the target. -/
def sampleCircleC : Circle := { id := 1, letter := 'c', x := 300, y := 200 }

/-- A concrete active state with target letter `'b'`. -/
def sampleActive : GameState :=
  { circles := [sampleCircleB, sampleCircleC]
    targetLetter := some 'b'
    score := 3
    width := 1000
    height := 800
    gameActive := true
    processingClick := false
    preparingNewRound := false
    newRoundButtonDisabled := false
    rng := []
    pending := [] }

/-- C1 instantiated: clicking the matching circle in `sampleActive`. -/
theorem c1_click_resolution_witness :
    sampleActive.gameActive = true ∧ sampleActive.processingClick = false ∧
    sampleActive.preparingNewRound = false ∧ sampleActive.targetLetter = some 'b' ∧
    (handleCircleClick sampleActive sampleCircleB).processingClick = true :=
  ⟨rfl, rfl, rfl, rfl,
    (c1_click_resolution sampleActive sampleCircleB 'b' rfl rfl rfl rfl).1⟩

/-! ## Claim C3: single resolution per round -/

/-- Claim C3: Once `processingClick` or `preparingNewRound` is set, every
further `handleCircleClick` call on any circle is a no-op that leaves the
whole state (circles, target letter, score) unchanged; and an accepted click
sets `processingClick`, so any later click in the same round is a no-op. -/
theorem c3_single_resolution (s : GameState) (c : Circle) :
    (s.processingClick = true ∨ s.preparingNewRound = true →
      handleCircleClick s c = s) ∧
    (s.gameActive = true → s.processingClick = false → s.preparingNewRound = false →
      (∃ t, s.targetLetter = some t) →
      (handleCircleClick s c).processingClick = true ∧
      ∀ c', handleCircleClick (handleCircleClick s c) c' = handleCircleClick s c) := by
  constructor
  · intro h
    rw [handleCircleClick]
    match hT : s.targetLetter with
    | none => rfl
    | some t =>
      rcases h with h | h <;> simp [h]
  · rintro hA hP hR ⟨t, hT⟩
    have h1 : (handleCircleClick s c).processingClick = true :=
      handleCircleClick_processing s c t hA hP hR hT
    refine ⟨h1, fun c' => ?_⟩
    rw [handleCircleClick]
    match hT' : (handleCircleClick s c).targetLetter with
    | none => rfl
    | some t' => simp [h1]

/-- C3 instantiated: a state already processing a click rejects clicks. -/
theorem c3_single_resolution_witness :
    ({ sampleActive with processingClick := true } : GameState).processingClick = true ∧
    handleCircleClick { sampleActive with processingClick := true } sampleCircleC =
      { sampleActive with processingClick := true } :=
  ⟨rfl, (c3_single_resolution { sampleActive with processingClick := true }
    sampleCircleC).1 (Or.inl rfl)⟩

/-! ## Claim C9: manual new-round request -/

/-- Claim C9: A manual new-round request is a no-op whenever a click is being
processed or a round is being prepared; when accepted it clears all circles
and the target letter, leaves the score exactly unchanged, marks the round
transition in progress and schedules the round-generation (and button
re-enable) callbacks. -/
theorem c9_manual_new_round (s : GameState) :
    (s.processingClick = true ∨ s.preparingNewRound = true → handleNewRound s = s) ∧
    (s.processingClick = false → s.preparingNewRound = false →
      (handleNewRound s).circles = [] ∧
      (handleNewRound s).targetLetter = none ∧
      (handleNewRound s).score = s.score ∧
      (handleNewRound s).preparingNewRound = true ∧
      (handleNewRound s).pending = s.pending ++
        [Pending.roundGen s.gameActive false s.width s.height,
          Pending.reenableButton]) := by
  constructor
  · intro h
    rw [handleNewRound, if_pos h]
  · intro hP hR
    rw [handleNewRound, if_neg (by simp [hP, hR])]
    simp [startNewRound, hR]

/-- C9 instantiated at `sampleActive`. -/
theorem c9_manual_new_round_witness :
    sampleActive.processingClick = false ∧ sampleActive.preparingNewRound = false ∧
    (handleNewRound sampleActive).circles = [] ∧
    (handleNewRound sampleActive).score = sampleActive.score :=
  ⟨rfl, rfl, ((c9_manual_new_round sampleActive).2 rfl rfl).1,
    ((c9_manual_new_round sampleActive).2 rfl rfl).2.2.1⟩

/-! ## Claim C7: score monotonicity -/

/-- Every scheduled hit/miss callback carries an increment of at most `1`
(the handlers only ever schedule `autoNewRound 1` and `autoNewRound 0`). -/
def pendingIncOK (s : GameState) : Prop :=
  ∀ (inc : ℕ) (capA capP : Bool) (capW capH : ℚ),
    Pending.autoNewRound inc capA capP capW capH ∈ s.pending → inc ≤ 1

theorem handleCircleClick_score (s : GameState) (c : Circle) :
    (handleCircleClick s c).score = s.score := by
  rw [handleCircleClick]
  match hT : s.targetLetter with
  | none => rfl
  | some t =>
    by_cases hg : s.gameActive = false ∨ s.processingClick = true ∨ s.preparingNewRound = true
    · simp [hg]
    · by_cases hlt : c.letter = t <;> simp [hg, hlt]

theorem startNewRound_score (inc : ℕ) (s : GameState) (h : inc ≤ 1) :
    s.score ≤ (startNewRound inc s).score ∧
    (startNewRound inc s).score ≤ s.score + 1 := by
  by_cases hp : s.preparingNewRound = true
  · rw [startNewRound, if_pos hp]; omega
  · rw [startNewRound, if_neg hp]
    by_cases hi : 0 < inc <;> simp [hi] <;> omega

theorem startAutomaticNewRound_score (inc : ℕ) (capA capP : Bool) (capW capH : ℚ)
    (s : GameState) (h : inc ≤ 1) :
    s.score ≤ (startAutomaticNewRound inc capA capP capW capH s).score ∧
    (startAutomaticNewRound inc capA capP capW capH s).score ≤ s.score + 1 := by
  by_cases hp : capP = true
  · rw [startAutomaticNewRound, if_pos hp]; omega
  · rw [startAutomaticNewRound, if_neg hp]
    by_cases hi : 0 < inc <;> simp [hi] <;> omega

theorem startAutomaticNewRound_score_ne (inc : ℕ) (capA capP : Bool) (capW capH : ℚ)
    (s : GameState)
    (h : (startAutomaticNewRound inc capA capP capW capH s).score ≠ s.score) :
    0 < inc := by
  by_cases hp : capP = true
  · rw [startAutomaticNewRound, if_pos hp] at h; omega
  · rw [startAutomaticNewRound, if_neg hp] at h
    by_cases hi : 0 < inc
    · exact hi
    · simp [hi] at h

theorem generateNewRound_score (capA capP : Bool) (capW capH : ℚ) (s : GameState) :
    (generateNewRound capA capP capW capH s).score = s.score := by
  by_cases hg : capA = false ∨ capP = true
  · rw [generateNewRound, if_pos hg]
  · rw [generateNewRound, if_neg hg]

theorem generateNewRoundS_score (s : GameState) :
    (generateNewRoundS s).score = s.score :=
  generateNewRound_score s.gameActive s.preparingNewRound s.width s.height s

theorem handleNewRound_score (s : GameState) :
    (handleNewRound s).score = s.score := by
  by_cases hg : s.processingClick = true ∨ s.preparingNewRound = true
  · rw [handleNewRound, if_pos hg]
  · rw [handleNewRound, if_neg hg]
    by_cases hp : s.preparingNewRound = true <;> simp [startNewRound, hp]

theorem initEffect_score (s : GameState) : (initEffect s).score = s.score := by
  rw [initEffect]
  by_cases hg : 0 < s.width ∧ 0 < s.height ∧ s.circles = [] ∧
      s.preparingNewRound = false ∧ s.gameActive = true
  · rw [if_pos hg, generateNewRoundS_score]
  · rw [if_neg hg]

theorem fireTimer_score (p : Pending) (s : GameState)
    (h : ∀ (inc : ℕ) (capA capP : Bool) (capW capH : ℚ),
      p = Pending.autoNewRound inc capA capP capW capH → inc ≤ 1) :
    s.score ≤ (fireTimer p s).score ∧ (fireTimer p s).score ≤ s.score + 1 ∧
    ((fireTimer p s).score ≠ s.score →
      ∃ capA capP capW capH, p = Pending.autoNewRound 1 capA capP capW capH) := by
  match p with
  | Pending.autoNewRound inc capA capP capW capH =>
    have h1 : inc ≤ 1 := h inc capA capP capW capH rfl
    refine ⟨(startAutomaticNewRound_score inc capA capP capW capH s h1).1,
      (startAutomaticNewRound_score inc capA capP capW capH s h1).2, fun hne => ?_⟩
    have h2 := startAutomaticNewRound_score_ne inc capA capP capW capH s hne
    have h3 : inc = 1 := by omega
    exact ⟨capA, capP, capW, capH, by rw [h3]⟩
  | Pending.roundGen capA capP capW capH =>
    have hs : (fireTimer (Pending.roundGen capA capP capW capH) s).score = s.score := by
      rw [fireTimer, generateNewRound_score]
    exact ⟨le_of_eq hs.symm, by rw [hs]; omega, fun hne => absurd hs hne⟩
  | Pending.finishRound t =>
    have hs : (fireTimer (Pending.finishRound t) s).score = s.score := rfl
    exact ⟨le_of_eq hs.symm, by rw [hs]; omega, fun hne => absurd hs hne⟩
  | Pending.reenableButton =>
    have hs : (fireTimer Pending.reenableButton s).score = s.score := rfl
    exact ⟨le_of_eq hs.symm, by rw [hs]; omega, fun hne => absurd hs hne⟩

theorem step_score (s : GameState) (e : Ev) (hOK : pendingIncOK s) :
    s.score ≤ (step s e).score ∧ (step s e).score ≤ s.score + 1 ∧
    (∀ c, e = Ev.click c → (step s e).score = s.score) ∧
    (e = Ev.newRoundBtn → (step s e).score = s.score) ∧
    ((step s e).score ≠ s.score →
      ∃ n capA capP capW capH, e = Ev.timer n ∧
        s.pending.get? n = some (Pending.autoNewRound 1 capA capP capW capH)) := by
  match e with
  | Ev.click c =>
    have hs : (step s (Ev.click c)).score = s.score := handleCircleClick_score s c
    exact ⟨le_of_eq hs.symm, (by rw [hs]; omega), (fun _ _ => hs),
      (by intro h; cases h), (fun hne => absurd hs hne)⟩
  | Ev.newRoundBtn =>
    have hs : (step s Ev.newRoundBtn).score = s.score := handleNewRound_score s
    exact ⟨le_of_eq hs.symm, (by rw [hs]; omega), (by intro c h; cases h),
      (fun _ => hs), (fun hne => absurd hs hne)⟩
  | Ev.timer n =>
    have hstep : step s (Ev.timer n) =
        match s.pending.get? n with
        | some p => fireTimer p { s with pending := s.pending.eraseIdx n }
        | none => s := rfl
    match hn : s.pending.get? n with
    | none =>
      have hs : step s (Ev.timer n) = s := by rw [hstep, hn]
      exact ⟨le_of_eq (by rw [hs]), (by rw [hs]; omega), (by intro c h; cases h),
        (by intro h; cases h), (fun hne => absurd (by rw [hs]) hne)⟩
    | some p =>
      have hmem : p ∈ s.pending := List.get?_mem hn
      have hs : step s (Ev.timer n) =
          fireTimer p { s with pending := s.pending.eraseIdx n } := by rw [hstep, hn]
      have hft := fireTimer_score p { s with pending := s.pending.eraseIdx n }
        (fun inc capA capP capW capH hp => hOK inc capA capP capW capH (hp ▸ hmem))
      refine ⟨(by rw [hs]; exact hft.1), (by rw [hs]; exact hft.2.1),
        (by intro c h; cases h), (by intro h; cases h), (fun hne => ?_)⟩
      rw [hs] at hne
      obtain ⟨capA, capP, capW, capH, hp1⟩ := hft.2.2 hne
      exact ⟨n, capA, capP, capW, capH, rfl, by rw [hn, hp1]⟩
  | Ev.resize w h =>
    have hs : (step s (Ev.resize w h)).score = s.score := rfl
    exact ⟨le_of_eq hs.symm, (by rw [hs]; omega), (by intro c hc; cases hc),
      (by intro hc; cases hc), (fun hne => absurd hs hne)⟩
  | Ev.effect =>
    have hs : (step s Ev.effect).score = s.score := initEffect_score s
    exact ⟨le_of_eq hs.symm, (by rw [hs]; omega), (by intro c h; cases h),
      (by intro h; cases h), (fun hne => absurd hs hne)⟩
  | Ev.showSubmit =>
    have hs : (step s Ev.showSubmit).score = s.score := rfl
    exact ⟨le_of_eq hs.symm, (by rw [hs]; omega), (by intro c h; cases h),
      (by intro h; cases h), (fun hne => absurd hs hne)⟩

theorem handleCircleClick_cases (s : GameState) (c : Circle) :
    handleCircleClick s c = s ∨
    (∃ t, s.targetLetter = some t ∧ c.letter = t ∧
      (handleCircleClick s c).pending = s.pending ++
        [Pending.autoNewRound 1 s.gameActive s.preparingNewRound s.width s.height]) ∨
    (∃ t, s.targetLetter = some t ∧ c.letter ≠ t ∧
      (handleCircleClick s c).pending = s.pending ++
        [Pending.autoNewRound 0 s.gameActive s.preparingNewRound s.width s.height]) := by
  rw [handleCircleClick]
  match hT : s.targetLetter with
  | none => exact Or.inl rfl
  | some t =>
    by_cases hg : s.gameActive = false ∨ s.processingClick = true ∨
        s.preparingNewRound = true
    · exact Or.inl (by simp [hg])
    · by_cases hlt : c.letter = t
      · exact Or.inr (Or.inl ⟨t, rfl, hlt, by simp [hg, hlt]⟩)
      · exact Or.inr (Or.inr ⟨t, rfl, hlt, by simp [hg, hlt]⟩)

theorem handleCircleClick_pending (s : GameState) (c : Circle) :
    (handleCircleClick s c).pending = s.pending ∨
    (handleCircleClick s c).pending = s.pending ++
      [Pending.autoNewRound 1 s.gameActive s.preparingNewRound s.width s.height] ∨
    (handleCircleClick s c).pending = s.pending ++
      [Pending.autoNewRound 0 s.gameActive s.preparingNewRound s.width s.height] := by
  rw [handleCircleClick]
  match hT : s.targetLetter with
  | none => exact Or.inl rfl
  | some t =>
    by_cases hg : s.gameActive = false ∨ s.processingClick = true ∨ s.preparingNewRound = true
    · exact Or.inl (by simp [hg])
    · by_cases hlt : c.letter = t
      · exact Or.inr (Or.inl (by simp [hg, hlt]))
      · exact Or.inr (Or.inr (by simp [hg, hlt]))

theorem startNewRound_pending (inc : ℕ) (s : GameState) :
    (startNewRound inc s).pending = s.pending ∨
    (startNewRound inc s).pending = s.pending ++
      [Pending.roundGen s.gameActive s.preparingNewRound s.width s.height] := by
  by_cases hp : s.preparingNewRound = true
  · rw [startNewRound, if_pos hp]; exact Or.inl rfl
  · rw [startNewRound, if_neg hp]; exact Or.inr rfl

theorem startAutomaticNewRound_pending (inc : ℕ) (capA capP : Bool) (capW capH : ℚ)
    (s : GameState) :
    (startAutomaticNewRound inc capA capP capW capH s).pending = s.pending ∨
    (startAutomaticNewRound inc capA capP capW capH s).pending =
      s.pending ++ [Pending.roundGen capA capP capW capH] := by
  by_cases hp : capP = true
  · rw [startAutomaticNewRound, if_pos hp]; exact Or.inl rfl
  · rw [startAutomaticNewRound, if_neg hp]; exact Or.inr rfl

theorem generateNewRound_pending (capA capP : Bool) (capW capH : ℚ) (s : GameState) :
    (generateNewRound capA capP capW capH s).pending = s.pending ∨
    ∃ t, (generateNewRound capA capP capW capH s).pending =
      s.pending ++ [Pending.finishRound t] := by
  by_cases hg : capA = false ∨ capP = true
  · rw [generateNewRound, if_pos hg]; exact Or.inl rfl
  · rw [generateNewRound, if_neg hg]
    match hres : (generateRoundData LETTERS (circleSize capW) (minDistanceOf capW)
        capW capH s.rng).1.2 with
    | some t =>
      refine Or.inr ⟨t, ?_⟩
      simp only [hres]
    | none =>
      refine Or.inl ?_
      simp only [hres, List.append_nil]

theorem generateNewRoundS_pending (s : GameState) :
    (generateNewRoundS s).pending = s.pending ∨
    ∃ t, (generateNewRoundS s).pending = s.pending ++ [Pending.finishRound t] :=
  generateNewRound_pending s.gameActive s.preparingNewRound s.width s.height s

theorem handleNewRound_pending (s : GameState) :
    (handleNewRound s).pending = s.pending ∨
    (handleNewRound s).pending = s.pending ++
      [Pending.roundGen s.gameActive false s.width s.height,
        Pending.reenableButton] := by
  by_cases hg : s.processingClick = true ∨ s.preparingNewRound = true
  · rw [handleNewRound, if_pos hg]; exact Or.inl rfl
  · have hp2 : s.preparingNewRound = false := by simpa using (not_or.mp hg).2
    rw [handleNewRound, if_neg hg]
    exact Or.inr (by simp [startNewRound, hp2])

theorem pendingIncOK_step (s : GameState) (e : Ev) (hOK : pendingIncOK s) :
    pendingIncOK (step s e) := by
  match e with
  | Ev.click c =>
    intro inc capA capP capW capH hmem
    rw [step] at hmem
    rcases handleCircleClick_pending s c with h | h | h <;> rw [h] at hmem
    · exact hOK inc capA capP capW capH hmem
    · rcases List.mem_append.mp hmem with h' | h'
      · exact hOK inc capA capP capW capH h'
      · simp at h'; omega
    · rcases List.mem_append.mp hmem with h' | h'
      · exact hOK inc capA capP capW capH h'
      · simp at h'; omega
  | Ev.newRoundBtn =>
    intro inc capA capP capW capH hmem
    rw [step] at hmem
    rcases handleNewRound_pending s with h | h <;> rw [h] at hmem
    · exact hOK inc capA capP capW capH hmem
    · rcases List.mem_append.mp hmem with h' | h'
      · exact hOK inc capA capP capW capH h'
      · simp at h'
  | Ev.timer n =>
    have hstep : step s (Ev.timer n) =
        match s.pending.get? n with
        | some p => fireTimer p { s with pending := s.pending.eraseIdx n }
        | none => s := rfl
    match hn : s.pending.get? n with
    | none =>
      have hs : step s (Ev.timer n) = s := by rw [hstep, hn]
      rw [hs]; exact hOK
    | some p =>
      have hs : step s (Ev.timer n) =
          fireTimer p { s with pending := s.pending.eraseIdx n } := by rw [hstep, hn]
      rw [hs]
      have hOK' : pendingIncOK { s with pending := s.pending.eraseIdx n } := by
        intro inc capA capP capW capH hmem
        exact hOK inc capA capP capW capH ((s.pending.eraseIdx_sublist n).mem hmem)
      match p with
      | Pending.autoNewRound inc capA capP capW capH =>
        intro inc' capA' capP' capW' capH' hmem
        rw [show fireTimer (Pending.autoNewRound inc capA capP capW capH)
            { s with pending := s.pending.eraseIdx n } =
          startAutomaticNewRound inc capA capP capW capH
            { s with pending := s.pending.eraseIdx n } from rfl] at hmem
        rcases startAutomaticNewRound_pending inc capA capP capW capH
            { s with pending := s.pending.eraseIdx n } with h | h <;> rw [h] at hmem
        · exact hOK' inc' capA' capP' capW' capH' hmem
        · rcases List.mem_append.mp hmem with h' | h'
          · exact hOK' inc' capA' capP' capW' capH' h'
          · simp at h'
      | Pending.roundGen capA capP capW capH =>
        intro inc' capA' capP' capW' capH' hmem
        rw [show fireTimer (Pending.roundGen capA capP capW capH)
            { s with pending := s.pending.eraseIdx n } =
          generateNewRound capA capP capW capH
            { s with processingClick := false, pending := s.pending.eraseIdx n } from rfl]
          at hmem
        have hOK2 : pendingIncOK
            { s with processingClick := false, pending := s.pending.eraseIdx n } := hOK'
        rcases generateNewRound_pending capA capP capW capH
            { s with processingClick := false, pending := s.pending.eraseIdx n } with
          h | ⟨t, h⟩ <;> rw [h] at hmem
        · exact hOK2 inc' capA' capP' capW' capH' hmem
        · rcases List.mem_append.mp hmem with h' | h'
          · exact hOK2 inc' capA' capP' capW' capH' h'
          · simp at h'
      | Pending.finishRound t => exact hOK'
      | Pending.reenableButton => exact hOK'
  | Ev.resize w h => exact hOK
  | Ev.effect =>
    rw [step, initEffect]
    by_cases hg : 0 < s.width ∧ 0 < s.height ∧ s.circles = [] ∧
        s.preparingNewRound = false ∧ s.gameActive = true
    · rw [if_pos hg]
      intro inc capA capP capW capH hmem
      rcases generateNewRoundS_pending s with h | ⟨t, h⟩ <;> rw [h] at hmem
      · exact hOK inc capA capP capW capH hmem
      · rcases List.mem_append.mp hmem with h' | h'
        · exact hOK inc capA capP capW capH h'
        · simp at h'
    · rw [if_neg hg]; exact hOK
  | Ev.showSubmit => exact hOK

theorem run_append_single (s : GameState) (evs : List Ev) (e : Ev) :
    run s (evs ++ [e]) = step (run s evs) e := by
  rw [run, run, List.foldl_append, List.foldl_cons, List.foldl_nil]

theorem pendingIncOK_run (s : GameState) (evs : List Ev) (hOK : pendingIncOK s) :
    pendingIncOK (run s evs) := by
  induction evs generalizing s with
  | nil => exact hOK
  | cons e evs ih =>
    rw [run, List.foldl_cons]
    exact ih (step s e) (pendingIncOK_step s e hOK)

/-- Claim C7: Starting from the freshly mounted state the score is `0`; along
every event sequence each further event leaves the score unchanged or
increases it by exactly `1`; clicks themselves and manual new-round requests
never change the score; and when the score does increase, the event was the
firing of a scheduled hit transition (`autoNewRound 1`). -/
theorem c7_score_monotonicity (w h : ℚ) (rng : List ℚ) :
    (init w h rng).score = 0 ∧
    ∀ (evs : List Ev) (e : Ev),
      (run (init w h rng) evs).score ≤ (run (init w h rng) (evs ++ [e])).score ∧
      (run (init w h rng) (evs ++ [e])).score ≤ (run (init w h rng) evs).score + 1 ∧
      (∀ c, e = Ev.click c →
        (run (init w h rng) (evs ++ [e])).score = (run (init w h rng) evs).score) ∧
      (e = Ev.newRoundBtn →
        (run (init w h rng) (evs ++ [e])).score = (run (init w h rng) evs).score) ∧
      ((run (init w h rng) (evs ++ [e])).score ≠ (run (init w h rng) evs).score →
        ∃ n capA capP capW capH, e = Ev.timer n ∧
          (run (init w h rng) evs).pending.get? n =
            some (Pending.autoNewRound 1 capA capP capW capH)) ∧
      (∀ c (capA capP : Bool) (capW capH : ℚ), e = Ev.click c →
        (run (init w h rng) (evs ++ [e])).pending =
          (run (init w h rng) evs).pending ++
            [Pending.autoNewRound 1 capA capP capW capH] →
        ∃ t, (run (init w h rng) evs).targetLetter = some t ∧ c.letter = t) := by
  refine ⟨rfl, fun evs e => ?_⟩
  have hOK : pendingIncOK (run (init w h rng) evs) :=
    pendingIncOK_run _ evs
      (by intro inc capA capP capW capH hmem; simp [init] at hmem)
  rw [run_append_single]
  have hs := step_score (run (init w h rng) evs) e hOK
  refine ⟨hs.1, hs.2.1, hs.2.2.1, hs.2.2.2.1, hs.2.2.2.2, ?_⟩
  intro c capA capP capW capH hce hpend
  subst hce
  rw [step] at hpend
  rcases handleCircleClick_cases (run (init w h rng) evs) c with
    hid | ⟨t, hT, hlt, heq⟩ | ⟨t, hT, hlt, heq⟩
  · rw [hid] at hpend
    have := congrArg List.length hpend
    simp at this
  · exact ⟨t, hT, hlt⟩
  · rw [heq] at hpend
    have h0 := List.append_cancel_left hpend
    simp at h0

/-- C7 instantiated: a manual new-round request does not change the score. -/
theorem c7_score_monotonicity_witness :
    (run (init 1000 800 []) ([] ++ [Ev.newRoundBtn])).score =
      (run (init 1000 800 []) []).score :=
  ((c7_score_monotonicity 1000 800 []).2 [] Ev.newRoundBtn).2.2.2.1 rfl

/-! ## Claim C8: the shuffle is a permutation, round letters are distinct -/

theorem cons_set_perm {α : Type} :
    ∀ (t : List α) (m : ℕ) (hm : m < t.length) (x : α),
      ((t.get ⟨m, hm⟩) :: t.set m x).Perm (x :: t) := by
  intro t
  induction t with
  | nil => intro m hm x; cases hm
  | cons y t ih =>
    intro m hm x
    match m with
    | 0 => exact List.Perm.swap x y t
    | Nat.succ m' =>
      have hm' : m' < t.length := Nat.lt_of_succ_lt_succ hm
      refine List.Perm.trans (List.Perm.swap y _ _) ?_
      exact List.Perm.trans (List.Perm.cons y (ih m' hm' x)) (List.Perm.swap x y t)

theorem set_set_perm {α : Type} :
    ∀ (l : List α) (i j : ℕ) (hi : i < l.length) (hj : j < l.length),
      ((l.set i (l.get ⟨j, hj⟩)).set j (l.get ⟨i, hi⟩)).Perm l := by
  intro l
  induction l with
  | nil => intro i j hi; cases hi
  | cons y t ih =>
    intro i j hi hj
    match i, j with
    | 0, 0 => exact List.Perm.refl _
    | 0, Nat.succ m =>
      have hm : m < t.length := Nat.lt_of_succ_lt_succ hj
      exact cons_set_perm t m hm y
    | Nat.succ n, 0 =>
      have hn : n < t.length := Nat.lt_of_succ_lt_succ hi
      exact cons_set_perm t n hn y
    | Nat.succ n, Nat.succ m =>
      have hn : n < t.length := Nat.lt_of_succ_lt_succ hi
      have hm : m < t.length := Nat.lt_of_succ_lt_succ hj
      exact List.Perm.cons y (ih n m hn hm)

theorem listSwap_perm {α : Type} (l : List α) (i j : ℕ) : (listSwap l i j).Perm l := by
  rw [listSwap]
  match hi : l.get? i, hj : l.get? j with
  | some a, some b =>
    obtain ⟨hi', ha⟩ := List.get?_eq_some.mp hi
    obtain ⟨hj', hb⟩ := List.get?_eq_some.mp hj
    rw [← ha, ← hb]
    exact set_set_perm l i j hi' hj'
  | some a, none => exact List.Perm.refl _
  | none, some b => exact List.Perm.refl _
  | none, none => exact List.Perm.refl _

theorem fyAux_perm {α : Type} :
    ∀ (i : ℕ) (l : List α) (rs : List ℚ), ((fyAux i l rs).1).Perm l := by
  intro i
  induction i with
  | zero => intro l rs; exact List.Perm.refl _
  | succ i ih =>
    intro l rs
    rw [fyAux]
    exact (ih _ _).trans (listSwap_perm l (i + 1) _)

theorem shuffleArray_perm {α : Type} (rs : List ℚ) (l : List α) :
    ((shuffleArray rs l).1).Perm l :=
  fyAux_perm (l.length - 1) l rs

theorem placeCircles_letters (cs md w h : ℚ) :
    ∀ (ls : List Char) (idx : ℕ) (acc : List Circle) (rs : List ℚ),
      ((placeCircles cs md w h ls idx acc rs).1).map (·.letter) =
        acc.map (·.letter) ++ ls := by
  intro ls
  induction ls with
  | nil => intro idx acc rs; simp [placeCircles]
  | cons letter rest ih =>
    intro idx acc rs
    rw [placeCircles, ih]
    simp

theorem placeCircles_length (cs md w h : ℚ) (ls : List Char) (idx : ℕ)
    (acc : List Circle) (rs : List ℚ) :
    (placeCircles cs md w h ls idx acc rs).1.length = acc.length + ls.length := by
  have h1 := congrArg List.length (placeCircles_letters cs md w h ls idx acc rs)
  simpa using h1

theorem generateRoundData_letters (alphabet : List Char) (cs md w h : ℚ)
    (rs : List ℚ) :
    (generateRoundData alphabet cs md w h rs).1.1.map (·.letter) =
      (shuffleArray rs alphabet).1.take CIRCLES_PER_ROUND := by
  rw [generateRoundData]
  simpa using placeCircles_letters cs md w h
    ((shuffleArray rs alphabet).1.take CIRCLES_PER_ROUND) 0 []
    (shuffleArray rs alphabet).2

theorem generateRoundData_length (alphabet : List Char) (cs md w h : ℚ)
    (rs : List ℚ) :
    (generateRoundData alphabet cs md w h rs).1.1.length =
      min CIRCLES_PER_ROUND alphabet.length := by
  have h1 := congrArg List.length (generateRoundData_letters alphabet cs md w h rs)
  simp only [List.length_map, List.length_take] at h1
  rw [h1, (shuffleArray_perm rs alphabet).length_eq]

theorem generateRoundData_letter_mem (alphabet : List Char) (cs md w h : ℚ)
    (rs : List ℚ) :
    ∀ c ∈ (generateRoundData alphabet cs md w h rs).1.1, c.letter ∈ alphabet := by
  intro c hc
  have hmem : c.letter ∈ (generateRoundData alphabet cs md w h rs).1.1.map (·.letter) :=
    List.mem_map_of_mem _ hc
  rw [generateRoundData_letters] at hmem
  exact (shuffleArray_perm rs alphabet).subset (List.mem_of_mem_take hmem)

theorem generateRoundData_letters_nodup (alphabet : List Char) (cs md w h : ℚ)
    (rs : List ℚ) (hnd : alphabet.Nodup) :
    ((generateRoundData alphabet cs md w h rs).1.1.map (·.letter)).Nodup := by
  rw [generateRoundData_letters]
  exact (((shuffleArray_perm rs alphabet).nodup_iff).mpr hnd).sublist
    (List.take_sublist _ _)

/-- Claim C8: The shuffled list is a permutation of the alphabet; the letters
placed in a round are exactly the first `CIRCLES_PER_ROUND` letters of the
shuffle in order, so the number of circles is
`min CIRCLES_PER_ROUND alphabet.length`, every placed letter belongs to the
alphabet, and when the alphabet has no duplicates the letters of one round
are pairwise distinct. -/
theorem c8_shuffle_permutation (alphabet : List Char) (cs md w h : ℚ)
    (rs : List ℚ) :
    ((shuffleArray rs alphabet).1).Perm alphabet ∧
    (generateRoundData alphabet cs md w h rs).1.1.map (·.letter) =
      (shuffleArray rs alphabet).1.take CIRCLES_PER_ROUND ∧
    (generateRoundData alphabet cs md w h rs).1.1.length =
      min CIRCLES_PER_ROUND alphabet.length ∧
    (∀ c ∈ (generateRoundData alphabet cs md w h rs).1.1, c.letter ∈ alphabet) ∧
    (alphabet.Nodup →
      ((generateRoundData alphabet cs md w h rs).1.1.map (·.letter)).Nodup) :=
  ⟨shuffleArray_perm rs alphabet, generateRoundData_letters alphabet cs md w h rs,
    generateRoundData_length alphabet cs md w h rs,
    generateRoundData_letter_mem alphabet cs md w h rs,
    generateRoundData_letters_nodup alphabet cs md w h rs⟩

/-- C8 instantiated at the game's own alphabet (which has no duplicates). -/
theorem c8_shuffle_permutation_witness :
    LETTERS.Nodup ∧
    ((generateRoundData LETTERS 48 (288/5) 1000 800 []).1.1.map (·.letter)).Nodup :=
  ⟨by decide, (c8_shuffle_permutation LETTERS 48 (288/5) 1000 800 []).2.2.2.2 (by decide)⟩

/-! ## Claim C6: re-entrancy guard -/

theorem generateNewRound_circles (capW capH : ℚ) (s : GameState) :
    (generateNewRound true false capW capH s).circles =
      (generateRoundData LETTERS (circleSize capW) (minDistanceOf capW)
        capW capH s.rng).1.1 := by
  rw [generateNewRound, if_neg (by simp)]

/-- Claim C6: Any round-transition attempt while `preparingNewRound` is already
set is a silent no-op (`startNewRound`, `startAutomaticNewRound`,
`generateNewRound` and `handleNewRound` all return the state unchanged, the
latter two for a captured `preparingNewRound = true`); two manual new-round
requests fired back to back produce the same state as one (the second is a
no-op); and an accepted manual request schedules exactly one round-generation
callback — not two — whose firing really does generate one new round of
`min CIRCLES_PER_ROUND LETTERS.length` circles. -/
theorem c6_reentrancy_guard (s : GameState) :
    (s.preparingNewRound = true →
      (∀ inc, startNewRound inc s = s) ∧
      (∀ inc (capA : Bool) (capW capH : ℚ),
        startAutomaticNewRound inc capA true capW capH s = s) ∧
      (∀ (capA : Bool) (capW capH : ℚ), generateNewRound capA true capW capH s = s) ∧
      generateNewRoundS s = s ∧ handleNewRound s = s) ∧
    (handleNewRound (handleNewRound s) = handleNewRound s) ∧
    (s.processingClick = false → s.preparingNewRound = false →
      (handleNewRound s).pending = s.pending ++
        [Pending.roundGen s.gameActive false s.width s.height,
          Pending.reenableButton] ∧
      ∀ (capW capH : ℚ) (u : GameState),
        (fireTimer (Pending.roundGen true false capW capH) u).circles.length =
          min CIRCLES_PER_ROUND LETTERS.length) := by
  refine ⟨?_, ?_, ?_⟩
  · intro h
    refine ⟨fun inc => by rw [startNewRound, if_pos h],
      fun inc capA capW capH => by rw [startAutomaticNewRound, if_pos rfl],
      fun capA capW capH => by rw [generateNewRound, if_pos (Or.inr rfl)],
      by rw [generateNewRoundS, generateNewRound, if_pos (Or.inr h)],
      by rw [handleNewRound, if_pos (Or.inr h)]⟩
  · by_cases hg : s.processingClick = true ∨ s.preparingNewRound = true
    · have hid : handleNewRound s = s := by rw [handleNewRound, if_pos hg]
      rw [hid, hid]
    · push_neg at hg
      have h2 : (handleNewRound s).preparingNewRound = true := by
        rw [handleNewRound, if_neg (by simp [hg.1, hg.2])]
        simp [startNewRound, hg.2]
      rw [handleNewRound, if_pos (Or.inr h2)]
  · intro hP hR
    constructor
    · rw [handleNewRound, if_neg (by simp [hP, hR])]
      simp [startNewRound, hR]
    · intro capW capH u
      rw [fireTimer, generateNewRound_circles, generateRoundData_length]

/-- C6 instantiated: with `preparingNewRound` set, `handleNewRound` is a
no-op. -/
theorem c6_reentrancy_guard_witness :
    ({ sampleActive with preparingNewRound := true } : GameState).preparingNewRound = true ∧
    handleNewRound { sampleActive with preparingNewRound := true } =
      { sampleActive with preparingNewRound := true } :=
  ⟨rfl, ((c6_reentrancy_guard { sampleActive with preparingNewRound := true }).1
    rfl).2.2.2.2⟩

/-! ## Claim C2: the target letter is read from a placed circle -/

/-- Every value in the random stream lies in `[0, 1)`, as `Math.random()`
guarantees. -/
def rngOK (rs : List ℚ) : Prop := ∀ q ∈ rs, 0 ≤ q ∧ q < 1

theorem next_fst_mem (rs : List ℚ) (h : rngOK rs) :
    0 ≤ (next rs).1 ∧ (next rs).1 < 1 := by
  match rs with
  | [] => exact ⟨le_refl 0, by norm_num [next]⟩
  | r :: rest => exact h r (List.mem_cons_self r rest)

theorem next_snd_rngOK (rs : List ℚ) (h : rngOK rs) : rngOK (next rs).2 := by
  match rs with
  | [] => exact h
  | r :: rest => exact fun q hq => h q (List.mem_cons_of_mem r hq)

theorem tryRandomAttempts_rngOK (md mnX mxX mnY mxY : ℚ) (existing : List Circle) :
    ∀ (n : ℕ) (rs : List ℚ), rngOK rs →
      rngOK (tryRandomAttempts md mnX mxX mnY mxY existing n rs).2 := by
  intro n
  induction n with
  | zero => intro rs h; exact h
  | succ n ih =>
    intro rs h
    rw [tryRandomAttempts]
    have h2 : rngOK (next (next rs).2).2 := next_snd_rngOK _ (next_snd_rngOK _ h)
    by_cases hov : wouldOverlap md
        (randomNumber (next rs).1 mnX mxX) (randomNumber (next (next rs).2).1 mnY mxY)
        existing = true
    · simp only [hov, if_true]
      exact ih _ h2
    · simp only [Bool.not_eq_true] at hov
      simp only [hov, Bool.false_eq_true, if_false]
      exact h2

theorem generateValidPosition_rngOK (cs md : ℚ) (existing : List Circle)
    (w h : ℚ) (rs : List ℚ) (hrs : rngOK rs) :
    rngOK (generateValidPosition cs md existing w h rs).2 := by
  have h0 : rngOK (tryRandomAttempts md (computeBounds cs w h).minX
      (computeBounds cs w h).maxX (computeBounds cs w h).minY
      (computeBounds cs w h).maxY existing 100 rs).2 :=
    tryRandomAttempts_rngOK _ _ _ _ _ _ 100 rs hrs
  simp only [generateValidPosition]
  split
  · exact h0
  · split
    · exact h0
    · exact next_snd_rngOK _ (next_snd_rngOK _ h0)

theorem placeCircles_rngOK (cs md w h : ℚ) :
    ∀ (ls : List Char) (idx : ℕ) (acc : List Circle) (rs : List ℚ), rngOK rs →
      rngOK (placeCircles cs md w h ls idx acc rs).2 := by
  intro ls
  induction ls with
  | nil => intro idx acc rs hrs; exact hrs
  | cons letter rest ih =>
    intro idx acc rs hrs
    rw [placeCircles]
    exact ih _ _ _ (generateValidPosition_rngOK cs md acc w h rs hrs)

theorem fyAux_rngOK {α : Type} :
    ∀ (i : ℕ) (l : List α) (rs : List ℚ), rngOK rs → rngOK (fyAux i l rs).2 := by
  intro i
  induction i with
  | zero => intro l rs h; exact h
  | succ i ih =>
    intro l rs h
    rw [fyAux]
    exact ih _ _ (next_snd_rngOK _ h)

theorem ratFloorNat_lt (r : ℚ) (n : ℕ) (h0 : 0 ≤ r) (h1 : r < 1) (hn : 0 < n) :
    ratFloorNat (r * (n : ℚ)) < n := by
  have hnq : (0 : ℚ) < (n : ℚ) := by exact_mod_cast hn
  have hlt : r * (n : ℚ) < (n : ℚ) := by
    calc r * (n : ℚ) < 1 * (n : ℚ) := by
          exact mul_lt_mul_of_pos_right h1 hnq
      _ = (n : ℚ) := one_mul _
  have hfl : ⌊r * (n : ℚ)⌋ < (n : ℤ) := by
    rw [Int.floor_lt]
    exact_mod_cast hlt
  rw [ratFloorNat]
  omega

theorem filter_length_one_of_nodup {α : Type} [DecidableEq α] :
    ∀ (l : List α) (t : α), l.Nodup → t ∈ l →
      (l.filter fun a => a = t).length = 1 := by
  intro l
  induction l with
  | nil => intro t _ ht; cases ht
  | cons a l ih =>
    intro t hnd ht
    rw [List.filter_cons]
    by_cases hat : a = t
    · have hnotin : t ∉ l := hat ▸ (List.nodup_cons.mp hnd).1
      have hfil : l.filter (fun a => a = t) = [] := by
        rw [List.filter_eq_nil]
        intro b hb hbt
        exact hnotin (by rwa [← (of_decide_eq_true hbt)])
      simp [hat, hfil]
    · have htl : t ∈ l := by
        rcases List.mem_cons.mp ht with h | h
        · exact absurd h.symm hat
        · exact h
      simp only [show decide (a = t) = false from decide_eq_false hat, Bool.false_eq_true,
        if_false]
      exact ih t (List.nodup_cons.mp hnd).2 htl

/-- Claim C2: For every round produced by the round generator from a non-empty
duplicate-free alphabet (with positive bounds and a `Math.random()`-range
random stream), the target letter is read off one of the circles actually
placed in the round — so some placed circle carries it — and exactly one
placed circle's letter equals it. -/
theorem c2_target_presence (alphabet : List Char) (cs md w h : ℚ) (rs : List ℚ)
    (hne : alphabet ≠ []) (hnd : alphabet.Nodup) (hrng : rngOK rs)
    (hw : 0 < w) (hh : 0 < h) :
    ∃ t, (generateRoundData alphabet cs md w h rs).1.2 = some t ∧
      (∃ i, ∃ hi : i < (generateRoundData alphabet cs md w h rs).1.1.length,
        ((generateRoundData alphabet cs md w h rs).1.1.get ⟨i, hi⟩).letter = t) ∧
      ((generateRoundData alphabet cs md w h rs).1.1.filter
        fun c => c.letter = t).length = 1 := by
  set circles := (generateRoundData alphabet cs md w h rs).1.1 with hcirc
  have hlen : circles.length = min CIRCLES_PER_ROUND alphabet.length :=
    generateRoundData_length alphabet cs md w h rs
  have hpos : 0 < circles.length := by
    rw [hlen, CIRCLES_PER_ROUND]
    have : 0 < alphabet.length := List.length_pos.mpr hne
    omega
  -- the random draw used for the target index is in range
  have hrs2 : rngOK (placeCircles cs md w h
      ((shuffleArray rs alphabet).1.take CIRCLES_PER_ROUND) 0 []
      (shuffleArray rs alphabet).2).2 :=
    placeCircles_rngOK cs md w h _ 0 [] _ (fyAux_rngOK _ _ _ hrng)
  have hr := next_fst_mem _ hrs2
  have hidx : ratFloorNat ((next (placeCircles cs md w h
      ((shuffleArray rs alphabet).1.take CIRCLES_PER_ROUND) 0 []
      (shuffleArray rs alphabet).2).2).1 * (circles.length : ℚ)) < circles.length :=
    ratFloorNat_lt _ _ hr.1 hr.2 hpos
  have htarget : (generateRoundData alphabet cs md w h rs).1.2 =
      (circles.get? (ratFloorNat ((next (placeCircles cs md w h
        ((shuffleArray rs alphabet).1.take CIRCLES_PER_ROUND) 0 []
        (shuffleArray rs alphabet).2).2).1 * (circles.length : ℚ)))).map (·.letter) := by
    rw [hcirc, generateRoundData]
  rw [List.get?_eq_get hidx] at htarget
  refine ⟨(circles.get ⟨_, hidx⟩).letter, by rw [htarget]; rfl, ⟨_, hidx, rfl⟩, ?_⟩
  -- uniqueness: the letters of one round are duplicate-free
  have hmem : (circles.get ⟨_, hidx⟩).letter ∈ circles.map (·.letter) :=
    List.mem_map_of_mem _ (circles.get_mem _ _)
  have hnodup : (circles.map (·.letter)).Nodup :=
    generateRoundData_letters_nodup alphabet cs md w h rs hnd
  have hflt := filter_length_one_of_nodup (circles.map (·.letter))
    (circles.get ⟨_, hidx⟩).letter hnodup hmem
  calc (circles.filter fun c => c.letter = (circles.get ⟨_, hidx⟩).letter).length
      = ((circles.map (·.letter)).filter
          fun a => a = (circles.get ⟨_, hidx⟩).letter).length := by
        rw [List.filter_map]
        simp [Function.comp_def]
    _ = 1 := hflt

/-- C2 instantiated at the game's own alphabet and realistic bounds. -/
theorem c2_target_presence_witness :
    LETTERS ≠ [] ∧ LETTERS.Nodup ∧
    ∃ t, (generateRoundData LETTERS 48 (288/5) 1000 800 []).1.2 = some t :=
  ⟨by decide, by decide,
    ((c2_target_presence LETTERS 48 (288/5) 1000 800 [] (by decide) (by decide)
      (fun q hq => absurd hq (List.not_mem_nil q)) (by norm_num) (by norm_num)).imp
      fun t ht => ht.1)⟩

/-! ## Claim C4: the three-tier placement algorithm -/

theorem wouldOverlap_eq_false_iff (md x y : ℚ) (existing : List Circle) :
    wouldOverlap md x y existing = false ↔
      ∀ c ∈ existing, md * md ≤ (x - c.x) * (x - c.x) + (y - c.y) * (y - c.y) := by
  simp [wouldOverlap, List.any_eq_false, not_lt]

theorem tryRandomAttempts_some (md mnX mxX mnY mxY : ℚ) (existing : List Circle) :
    ∀ (n : ℕ) (rs : List ℚ) (x y : ℚ),
      (tryRandomAttempts md mnX mxX mnY mxY existing n rs).1 = some (x, y) →
      wouldOverlap md x y existing = false ∧
      ∃ r1 r2, x = randomNumber r1 mnX mxX ∧ y = randomNumber r2 mnY mxY := by
  intro n
  induction n with
  | zero => intro rs x y hxy; cases hxy
  | succ n ih =>
    intro rs x y hxy
    rw [tryRandomAttempts] at hxy
    by_cases hov : wouldOverlap md (randomNumber (next rs).1 mnX mxX)
        (randomNumber (next (next rs).2).1 mnY mxY) existing = true
    · simp only [hov, if_true] at hxy
      exact ih _ x y hxy
    · simp only [Bool.not_eq_true] at hov
      simp only [hov, Bool.false_eq_true, if_false] at hxy
      obtain ⟨hx, hy⟩ := Prod.mk.injEq .. ▸ Option.some.injEq .. ▸ hxy
      refine ⟨?_, (next rs).1, (next (next rs).2).1, hx.symm, hy.symm⟩
      rw [hx, hy] at hov
      exact hov

theorem scanCols_some (md : ℚ) (existing : List Circle) (mnX cw y : ℚ) :
    ∀ (cols : List ℕ) (x : ℚ), scanCols md existing mnX cw y cols = some x →
      ∃ pre col post, cols = pre ++ col :: post ∧ x = gridCellX mnX cw col ∧
        wouldOverlap md (gridCellX mnX cw col) y existing = false ∧
        ∀ c' ∈ pre, wouldOverlap md (gridCellX mnX cw c') y existing = true := by
  intro cols
  induction cols with
  | nil => intro x hx; cases hx
  | cons col cols ih =>
    intro x hx
    rw [scanCols] at hx
    by_cases hov : wouldOverlap md (gridCellX mnX cw col) y existing = true
    · simp only [hov, if_true] at hx
      obtain ⟨pre, col', post, hsplit, hxeq, hno, hpre⟩ := ih x hx
      refine ⟨col :: pre, col', post, by rw [hsplit]; rfl, hxeq, hno, ?_⟩
      intro c' hc'
      rcases List.mem_cons.mp hc' with h | h
      · rw [h]; exact hov
      · exact hpre c' h
    · simp only [Bool.not_eq_true] at hov
      simp only [hov, Bool.false_eq_true, if_false, Option.some.injEq] at hx
      exact ⟨[], col, cols, rfl, hx.symm, hov, fun c' hc' => absurd hc' (List.not_mem_nil c')⟩

theorem scanCols_none (md : ℚ) (existing : List Circle) (mnX cw y : ℚ) :
    ∀ (cols : List ℕ), scanCols md existing mnX cw y cols = none →
      ∀ c' ∈ cols, wouldOverlap md (gridCellX mnX cw c') y existing = true := by
  intro cols
  induction cols with
  | nil => intro _ c' hc'; cases hc'
  | cons col cols ih =>
    intro hnone c' hc'
    rw [scanCols] at hnone
    by_cases hov : wouldOverlap md (gridCellX mnX cw col) y existing = true
    · simp only [hov, if_true] at hnone
      rcases List.mem_cons.mp hc' with h | h
      · rw [h]; exact hov
      · exact ih hnone c' h
    · simp only [Bool.not_eq_true] at hov
      simp only [hov, Bool.false_eq_true, if_false] at hnone
      cases hnone

theorem scanRows_some (md : ℚ) (existing : List Circle) (mnX cw mnY ch : ℚ) (g : ℕ) :
    ∀ (rows : List ℕ) (x y : ℚ),
      scanRows md existing mnX cw mnY ch g rows = some (x, y) →
      ∃ preR row postR, rows = preR ++ row :: postR ∧ y = gridCellY mnY ch row ∧
        (∀ r ∈ preR,
          scanCols md existing mnX cw (gridCellY mnY ch r) (List.range g) = none) ∧
        scanCols md existing mnX cw (gridCellY mnY ch row) (List.range g) = some x := by
  intro rows
  induction rows with
  | nil => intro x y hxy; cases hxy
  | cons row rows ih =>
    intro x y hxy
    rw [scanRows] at hxy
    match hsc : scanCols md existing mnX cw (gridCellY mnY ch row) (List.range g) with
    | some x' =>
      rw [hsc] at hxy
      obtain ⟨hx, hy⟩ := Prod.mk.injEq .. ▸ Option.some.injEq .. ▸ hxy
      exact ⟨[], row, rows, rfl, hy.symm, fun r hr => absurd hr (List.not_mem_nil r),
        by rw [hsc, hx]⟩
    | none =>
      rw [hsc] at hxy
      obtain ⟨preR, row', postR, hsplit, hyeq, hpre, hrow⟩ := ih x y hxy
      refine ⟨row :: preR, row', postR, by rw [hsplit]; rfl, hyeq, ?_, hrow⟩
      intro r hr
      rcases List.mem_cons.mp hr with h | h
      · rw [h]; exact hsc
      · exact hpre r h

theorem range_split (g : ℕ) (pre : List ℕ) (a : ℕ) (post : List ℕ)
    (h : List.range g = pre ++ a :: post) : pre = List.range a ∧ a < g := by
  have hlen : g = pre.length + (post.length + 1) := by
    have := congrArg List.length h
    simpa [Nat.add_comm, Nat.add_assoc, Nat.add_left_comm] using this
  have hplen : pre.length < g := by omega
  have ha : a = pre.length := by
    have h1 : (List.range g)[pre.length]? = some pre.length :=
      List.getElem?_range hplen
    have h2 : (pre ++ a :: post)[pre.length]? = some a := by
      rw [List.getElem?_append_right (le_refl pre.length), Nat.sub_self]
      simp
    rw [h] at h1
    exact Option.some.inj (h2.symm.trans h1)
  have hpre : pre = List.range a := by
    have htake : (pre ++ a :: post).take pre.length = pre := List.take_left pre _
    rw [← h, List.take_range] at htake
    rw [← htake, ha, Nat.min_eq_left (by omega)]
  exact ⟨hpre, by omega⟩

theorem scanRows_range_first (md : ℚ) (existing : List Circle)
    (mnX cw mnY ch : ℚ) (g : ℕ) (x y : ℚ)
    (hsome : scanRows md existing mnX cw mnY ch g (List.range g) = some (x, y)) :
    (∀ c ∈ existing, md * md ≤ (x - c.x) * (x - c.x) + (y - c.y) * (y - c.y)) ∧
    ∃ row col, row < g ∧ col < g ∧
      x = gridCellX mnX cw col ∧ y = gridCellY mnY ch row ∧
      (∀ r' < row, ∀ c' < g,
        wouldOverlap md (gridCellX mnX cw c') (gridCellY mnY ch r') existing = true) ∧
      (∀ c' < col,
        wouldOverlap md (gridCellX mnX cw c') (gridCellY mnY ch row) existing = true) := by
  obtain ⟨preR, row, postR, hsplitR, hy, hpreR, hrow⟩ :=
    scanRows_some md existing mnX cw mnY ch g (List.range g) x y hsome
  obtain ⟨hpreREq, hrowLt⟩ := range_split g preR row postR hsplitR
  obtain ⟨pre, col, post, hsplitC, hx, hnoov, hpreC⟩ :=
    scanCols_some md existing mnX cw (gridCellY mnY ch row) (List.range g) x hrow
  obtain ⟨hpreCEq, hcolLt⟩ := range_split g pre col post hsplitC
  have hsep : ∀ c ∈ existing,
      md * md ≤ (x - c.x) * (x - c.x) + (y - c.y) * (y - c.y) := by
    rw [hx, hy]
    exact (wouldOverlap_eq_false_iff md _ _ existing).mp hnoov
  refine ⟨hsep, row, col, hrowLt, hcolLt, hx, hy, ?_, ?_⟩
  · intro r' hr' c' hc'
    have hrmem : r' ∈ preR := by rw [hpreREq]; exact List.mem_range.mpr hr'
    exact scanCols_none md existing mnX cw (gridCellY mnY ch r') (List.range g)
      (hpreR r' hrmem) c' (List.mem_range.mpr hc')
  · intro c' hc'
    have hcmem : c' ∈ pre := by rw [hpreCEq]; exact List.mem_range.mpr hc'
    exact hpreC c' hcmem

theorem gvp_tier0 (cs md w h : ℚ) (existing : List Circle) (rs : List ℚ)
    (p : ℚ × ℚ)
    (hp : (tryRandomAttempts md (computeBounds cs w h).minX
      (computeBounds cs w h).maxX (computeBounds cs w h).minY
      (computeBounds cs w h).maxY existing 100 rs).1 = some p) :
    generateValidPosition cs md existing w h rs =
      (p, (tryRandomAttempts md (computeBounds cs w h).minX
        (computeBounds cs w h).maxX (computeBounds cs w h).minY
        (computeBounds cs w h).maxY existing 100 rs).2) := by
  simp only [generateValidPosition, hp]

theorem gvp_tier1 (cs md w h : ℚ) (existing : List Circle) (rs : List ℚ)
    (hnone : (tryRandomAttempts md (computeBounds cs w h).minX
      (computeBounds cs w h).maxX (computeBounds cs w h).minY
      (computeBounds cs w h).maxY existing 100 rs).1 = none)
    (p : ℚ × ℚ)
    (hp : scanRows md existing (computeBounds cs w h).minX
      (((computeBounds cs w h).maxX - (computeBounds cs w h).minX) /
        ((ceilSqrt (existing.length + 1) + 1 : ℕ) : ℚ))
      (computeBounds cs w h).minY
      (((computeBounds cs w h).maxY - (computeBounds cs w h).minY) /
        ((ceilSqrt (existing.length + 1) + 1 : ℕ) : ℚ))
      (ceilSqrt (existing.length + 1) + 1)
      (List.range (ceilSqrt (existing.length + 1) + 1)) = some p) :
    generateValidPosition cs md existing w h rs =
      (p, (tryRandomAttempts md (computeBounds cs w h).minX
        (computeBounds cs w h).maxX (computeBounds cs w h).minY
        (computeBounds cs w h).maxY existing 100 rs).2) := by
  simp only [generateValidPosition, hnone, hp]

theorem gvp_tier2 (cs md w h : ℚ) (existing : List Circle) (rs : List ℚ)
    (hnone : (tryRandomAttempts md (computeBounds cs w h).minX
      (computeBounds cs w h).maxX (computeBounds cs w h).minY
      (computeBounds cs w h).maxY existing 100 rs).1 = none)
    (hscan : scanRows md existing (computeBounds cs w h).minX
      (((computeBounds cs w h).maxX - (computeBounds cs w h).minX) /
        ((ceilSqrt (existing.length + 1) + 1 : ℕ) : ℚ))
      (computeBounds cs w h).minY
      (((computeBounds cs w h).maxY - (computeBounds cs w h).minY) /
        ((ceilSqrt (existing.length + 1) + 1 : ℕ) : ℚ))
      (ceilSqrt (existing.length + 1) + 1)
      (List.range (ceilSqrt (existing.length + 1) + 1)) = none) :
    generateValidPosition cs md existing w h rs =
      ((randomNumber (next (tryRandomAttempts md (computeBounds cs w h).minX
          (computeBounds cs w h).maxX (computeBounds cs w h).minY
          (computeBounds cs w h).maxY existing 100 rs).2).1
            (computeBounds cs w h).minX (computeBounds cs w h).maxX,
        randomNumber (next (next (tryRandomAttempts md (computeBounds cs w h).minX
          (computeBounds cs w h).maxX (computeBounds cs w h).minY
          (computeBounds cs w h).maxY existing 100 rs).2).2).1
            (computeBounds cs w h).minY (computeBounds cs w h).maxY),
        (next (next (tryRandomAttempts md (computeBounds cs w h).minX
          (computeBounds cs w h).maxX (computeBounds cs w h).minY
          (computeBounds cs w h).maxY existing 100 rs).2).2).2) := by
  simp only [generateValidPosition, hnone, hscan]

/-- Claim C4: `generateValidPosition` implements the three-tier placement
algorithm: (a) every position accepted by the random tier satisfies the
minimum-separation constraint against every existing circle (and has the
`randomNumber` candidate form); (b) every position produced by the grid tier
is a non-overlapping grid cell center and is the *first* such cell in
row-major order (all earlier rows have no admissible column, and all earlier
columns of its row overlap); (c) the function composes the tiers in order —
a tier-0 success is returned as-is, otherwise a tier-1 success is returned,
otherwise one more unconditional random candidate is returned, so a position
is always produced. -/
theorem c4_placement_tiers (cs md w h : ℚ) (existing : List Circle) (rs : List ℚ) :
    (∀ (mnX mxX mnY mxY : ℚ) (n : ℕ) (rs1 : List ℚ) (x y : ℚ),
      (tryRandomAttempts md mnX mxX mnY mxY existing n rs1).1 = some (x, y) →
      (∀ c ∈ existing, md * md ≤ (x - c.x) * (x - c.x) + (y - c.y) * (y - c.y)) ∧
      ∃ r1 r2, x = randomNumber r1 mnX mxX ∧ y = randomNumber r2 mnY mxY) ∧
    (∀ (mnX cw mnY ch : ℚ) (g : ℕ) (x y : ℚ),
      scanRows md existing mnX cw mnY ch g (List.range g) = some (x, y) →
      (∀ c ∈ existing, md * md ≤ (x - c.x) * (x - c.x) + (y - c.y) * (y - c.y)) ∧
      ∃ row col, row < g ∧ col < g ∧
        x = gridCellX mnX cw col ∧ y = gridCellY mnY ch row ∧
        (∀ r' < row, ∀ c' < g,
          wouldOverlap md (gridCellX mnX cw c') (gridCellY mnY ch r') existing = true) ∧
        (∀ c' < col,
          wouldOverlap md (gridCellX mnX cw c') (gridCellY mnY ch row) existing = true)) ∧
    ((∀ p, (tryRandomAttempts md (computeBounds cs w h).minX (computeBounds cs w h).maxX
        (computeBounds cs w h).minY (computeBounds cs w h).maxY existing 100 rs).1 =
          some p →
      generateValidPosition cs md existing w h rs =
        (p, (tryRandomAttempts md (computeBounds cs w h).minX (computeBounds cs w h).maxX
          (computeBounds cs w h).minY (computeBounds cs w h).maxY existing 100 rs).2)) ∧
     ((tryRandomAttempts md (computeBounds cs w h).minX (computeBounds cs w h).maxX
        (computeBounds cs w h).minY (computeBounds cs w h).maxY existing 100 rs).1 =
          none →
      (∀ p, scanRows md existing (computeBounds cs w h).minX
          (((computeBounds cs w h).maxX - (computeBounds cs w h).minX) /
            ((ceilSqrt (existing.length + 1) + 1 : ℕ) : ℚ))
          (computeBounds cs w h).minY
          (((computeBounds cs w h).maxY - (computeBounds cs w h).minY) /
            ((ceilSqrt (existing.length + 1) + 1 : ℕ) : ℚ))
          (ceilSqrt (existing.length + 1) + 1)
          (List.range (ceilSqrt (existing.length + 1) + 1)) = some p →
        generateValidPosition cs md existing w h rs =
          (p, (tryRandomAttempts md (computeBounds cs w h).minX
            (computeBounds cs w h).maxX (computeBounds cs w h).minY
            (computeBounds cs w h).maxY existing 100 rs).2)) ∧
      (scanRows md existing (computeBounds cs w h).minX
          (((computeBounds cs w h).maxX - (computeBounds cs w h).minX) /
            ((ceilSqrt (existing.length + 1) + 1 : ℕ) : ℚ))
          (computeBounds cs w h).minY
          (((computeBounds cs w h).maxY - (computeBounds cs w h).minY) /
            ((ceilSqrt (existing.length + 1) + 1 : ℕ) : ℚ))
          (ceilSqrt (existing.length + 1) + 1)
          (List.range (ceilSqrt (existing.length + 1) + 1)) = none →
        generateValidPosition cs md existing w h rs =
          ((randomNumber (next (tryRandomAttempts md (computeBounds cs w h).minX
              (computeBounds cs w h).maxX (computeBounds cs w h).minY
              (computeBounds cs w h).maxY existing 100 rs).2).1
                (computeBounds cs w h).minX (computeBounds cs w h).maxX,
            randomNumber (next (next (tryRandomAttempts md (computeBounds cs w h).minX
              (computeBounds cs w h).maxX (computeBounds cs w h).minY
              (computeBounds cs w h).maxY existing 100 rs).2).2).1
                (computeBounds cs w h).minY (computeBounds cs w h).maxY),
            (next (next (tryRandomAttempts md (computeBounds cs w h).minX
              (computeBounds cs w h).maxX (computeBounds cs w h).minY
              (computeBounds cs w h).maxY existing 100 rs).2).2).2)))) := by
  refine ⟨?_, ?_, ?_, ?_⟩
  · intro mnX mxX mnY mxY n rs1 x y hsome
    obtain ⟨hov, hform⟩ := tryRandomAttempts_some md mnX mxX mnY mxY existing n rs1 x y hsome
    exact ⟨(wouldOverlap_eq_false_iff md x y existing).mp hov, hform⟩
  · intro mnX cw mnY ch g x y hsome
    exact scanRows_range_first md existing mnX cw mnY ch g x y hsome
  · intro p hp
    exact gvp_tier0 cs md w h existing rs p hp
  · intro hnone
    exact ⟨fun p hp => gvp_tier1 cs md w h existing rs hnone p hp,
      fun hscan => gvp_tier2 cs md w h existing rs hnone hscan⟩

/-- C4 instantiated: with no existing circles the first random candidate is
vacuously separated and returned directly. -/
theorem c4_placement_tiers_witness :
    (tryRandomAttempts (288/5) (computeBounds 48 1000 800).minX
      (computeBounds 48 1000 800).maxX (computeBounds 48 1000 800).minY
      (computeBounds 48 1000 800).maxY [] 100 []).1 =
        some (randomNumber 0 (computeBounds 48 1000 800).minX
          (computeBounds 48 1000 800).maxX,
        randomNumber 0 (computeBounds 48 1000 800).minY
          (computeBounds 48 1000 800).maxY) ∧
    generateValidPosition 48 (288/5) [] 1000 800 [] =
      ((randomNumber 0 (computeBounds 48 1000 800).minX
          (computeBounds 48 1000 800).maxX,
        randomNumber 0 (computeBounds 48 1000 800).minY
          (computeBounds 48 1000 800).maxY),
       (tryRandomAttempts (288/5) (computeBounds 48 1000 800).minX
        (computeBounds 48 1000 800).maxX (computeBounds 48 1000 800).minY
        (computeBounds 48 1000 800).maxY [] 100 []).2) := by
  have hfirst : (tryRandomAttempts (288/5) (computeBounds 48 1000 800).minX
      (computeBounds 48 1000 800).maxX (computeBounds 48 1000 800).minY
      (computeBounds 48 1000 800).maxY [] 100 []).1 =
        some (randomNumber 0 (computeBounds 48 1000 800).minX
          (computeBounds 48 1000 800).maxX,
        randomNumber 0 (computeBounds 48 1000 800).minY
          (computeBounds 48 1000 800).maxY) := by
    rw [show (100 : ℕ) = 99 + 1 from rfl, tryRandomAttempts]
    simp [wouldOverlap, next]
  exact ⟨hfirst,
    (c4_placement_tiers 48 (288/5) 1000 800 [] []).2.2.1 _ hfirst⟩

/-! ## Claim C10: positions and the play rectangle -/

theorem randomNumber_bounds (r lo hi : ℚ) (h0 : 0 ≤ r) (h1 : r < 1)
    (hlohi : lo ≤ hi) :
    lo ≤ randomNumber r lo hi ∧ randomNumber r lo hi < hi + 1 := by
  rw [randomNumber]
  have hs : (0 : ℚ) < hi - lo + 1 := by linarith
  have hnn : (0 : ℚ) ≤ r * (hi - lo + 1) := mul_nonneg h0 (le_of_lt hs)
  have hfl0 : (0 : ℤ) ≤ ⌊r * (hi - lo + 1)⌋ := Int.floor_nonneg.mpr hnn
  have hflq : ((⌊r * (hi - lo + 1)⌋ : ℤ) : ℚ) ≤ r * (hi - lo + 1) := Int.floor_le _
  have hlt : r * (hi - lo + 1) < hi - lo + 1 := by
    calc r * (hi - lo + 1) < 1 * (hi - lo + 1) := mul_lt_mul_of_pos_right h1 hs
      _ = hi - lo + 1 := one_mul _
  constructor
  · have : (0 : ℚ) ≤ ((⌊r * (hi - lo + 1)⌋ : ℤ) : ℚ) := by exact_mod_cast hfl0
    linarith
  · linarith

theorem gridCell_bounds (lo hi : ℚ) (g : ℕ) (k : ℕ) (hg : 0 < g) (hk : k < g)
    (hle : lo ≤ hi) :
    lo ≤ gridCellX lo ((hi - lo) / (g : ℚ)) k ∧
    gridCellX lo ((hi - lo) / (g : ℚ)) k ≤ hi := by
  have hgq : (0 : ℚ) < (g : ℚ) := by exact_mod_cast hg
  have hcw : (0 : ℚ) ≤ (hi - lo) / (g : ℚ) := div_nonneg (by linarith) (le_of_lt hgq)
  have hkq : (k : ℚ) ≤ (g : ℚ) - 1 := by
    have : (k : ℚ) + 1 ≤ (g : ℚ) := by exact_mod_cast hk
    linarith
  have hgcw : (g : ℚ) * ((hi - lo) / (g : ℚ)) = hi - lo := by
    field_simp
  rw [gridCellX]
  constructor
  · have h1 : (0 : ℚ) ≤ (k : ℚ) * ((hi - lo) / (g : ℚ)) :=
      mul_nonneg (by exact_mod_cast Nat.zero_le k) hcw
    have h2 : (0 : ℚ) ≤ (hi - lo) / (g : ℚ) / 2 := by linarith
    linarith
  · have h1 : (k : ℚ) * ((hi - lo) / (g : ℚ)) ≤
        ((g : ℚ) - 1) * ((hi - lo) / (g : ℚ)) :=
      mul_le_mul_of_nonneg_right hkq hcw
    nlinarith [hgcw, hcw]

theorem gridCellY_bounds (lo hi : ℚ) (g : ℕ) (k : ℕ) (hg : 0 < g) (hk : k < g)
    (hle : lo ≤ hi) :
    lo ≤ gridCellY lo ((hi - lo) / (g : ℚ)) k ∧
    gridCellY lo ((hi - lo) / (g : ℚ)) k ≤ hi := by
  have h := gridCell_bounds lo hi g k hg hk hle
  rw [gridCellX] at h
  rw [gridCellY]
  exact h

theorem tryRandomAttempts_in_bounds (md mnX mxX mnY mxY : ℚ) (existing : List Circle)
    (hx : mnX ≤ mxX) (hy : mnY ≤ mxY) :
    ∀ (n : ℕ) (rs : List ℚ), rngOK rs →
      ∀ x y, (tryRandomAttempts md mnX mxX mnY mxY existing n rs).1 = some (x, y) →
        mnX ≤ x ∧ x < mxX + 1 ∧ mnY ≤ y ∧ y < mxY + 1 := by
  intro n
  induction n with
  | zero => intro rs _ x y hxy; cases hxy
  | succ n ih =>
    intro rs hrs x y hxy
    rw [tryRandomAttempts] at hxy
    by_cases hov : wouldOverlap md (randomNumber (next rs).1 mnX mxX)
        (randomNumber (next (next rs).2).1 mnY mxY) existing = true
    · simp only [hov, if_true] at hxy
      exact ih _ (next_snd_rngOK _ (next_snd_rngOK _ hrs)) x y hxy
    · simp only [Bool.not_eq_true] at hov
      simp only [hov, Bool.false_eq_true, if_false] at hxy
      obtain ⟨hxe, hye⟩ := Prod.mk.injEq .. ▸ Option.some.injEq .. ▸ hxy
      have hr1 := next_fst_mem rs hrs
      have hr2 := next_fst_mem (next rs).2 (next_snd_rngOK rs hrs)
      have hbx := randomNumber_bounds (next rs).1 mnX mxX hr1.1 hr1.2 hx
      have hby := randomNumber_bounds (next (next rs).2).1 mnY mxY hr2.1 hr2.2 hy
      rw [hxe] at hbx
      rw [hye] at hby
      exact ⟨hbx.1, hbx.2, hby.1, hby.2⟩

/-- Claim C10, amended: Because `randomNumber(min, max)` computes
`floor(random * (max - min + 1)) + min`, a random-tier (or last-resort-tier)
position can exceed `max` by up to one pixel when `max - min` is not an
integer; what does hold for every tier is `min ≤ x < max + 1` on each axis
(grid-tier cell centers even satisfy `x ≤ max`).  So every returned position
satisfies `minX ≤ x < maxX + 1` and `minY ≤ y < maxY + 1`, but not the
claimed `x ≤ maxX` / `y ≤ maxY`. -/
theorem c10_position_bounds (cs md w h : ℚ) (existing : List Circle) (rs : List ℚ)
    (hrng : rngOK rs)
    (hx : (computeBounds cs w h).minX ≤ (computeBounds cs w h).maxX)
    (hy : (computeBounds cs w h).minY ≤ (computeBounds cs w h).maxY) :
    (computeBounds cs w h).minX ≤ (generateValidPosition cs md existing w h rs).1.1 ∧
    (generateValidPosition cs md existing w h rs).1.1 <
      (computeBounds cs w h).maxX + 1 ∧
    (computeBounds cs w h).minY ≤ (generateValidPosition cs md existing w h rs).1.2 ∧
    (generateValidPosition cs md existing w h rs).1.2 <
      (computeBounds cs w h).maxY + 1 := by
  have ht0OK : rngOK (tryRandomAttempts md (computeBounds cs w h).minX
      (computeBounds cs w h).maxX (computeBounds cs w h).minY
      (computeBounds cs w h).maxY existing 100 rs).2 :=
    tryRandomAttempts_rngOK _ _ _ _ _ _ 100 rs hrng
  match ht0 : (tryRandomAttempts md (computeBounds cs w h).minX
      (computeBounds cs w h).maxX (computeBounds cs w h).minY
      (computeBounds cs w h).maxY existing 100 rs).1 with
  | some p =>
    have hres := gvp_tier0 cs md w h existing rs p ht0
    have hb := tryRandomAttempts_in_bounds md (computeBounds cs w h).minX
      (computeBounds cs w h).maxX (computeBounds cs w h).minY
      (computeBounds cs w h).maxY existing hx hy 100 rs hrng p.1 p.2 (by rw [ht0])
    rw [hres]
    exact hb
  | none =>
    match hsc : scanRows md existing (computeBounds cs w h).minX
        (((computeBounds cs w h).maxX - (computeBounds cs w h).minX) /
          ((ceilSqrt (existing.length + 1) + 1 : ℕ) : ℚ))
        (computeBounds cs w h).minY
        (((computeBounds cs w h).maxY - (computeBounds cs w h).minY) /
          ((ceilSqrt (existing.length + 1) + 1 : ℕ) : ℚ))
        (ceilSqrt (existing.length + 1) + 1)
        (List.range (ceilSqrt (existing.length + 1) + 1)) with
    | some p =>
      have hres := gvp_tier1 cs md w h existing rs ht0 p hsc
      obtain ⟨hsep, row, col, hrow, hcol, hxe, hye, hfirst1, hfirst2⟩ :=
        scanRows_range_first md existing _ _ _ _
          (ceilSqrt (existing.length + 1) + 1) p.1 p.2 (by rw [hsc])
      have hgpos : 0 < ceilSqrt (existing.length + 1) + 1 := Nat.succ_pos _
      have hbx := gridCell_bounds (computeBounds cs w h).minX (computeBounds cs w h).maxX
        (ceilSqrt (existing.length + 1) + 1) col hgpos hcol hx
      have hby := gridCellY_bounds (computeBounds cs w h).minY (computeBounds cs w h).maxY
        (ceilSqrt (existing.length + 1) + 1) row hgpos hrow hy
      rw [hres]
      dsimp only
      rw [hxe, hye]
      exact ⟨hbx.1, by linarith [hbx.2], hby.1, by linarith [hby.2]⟩
    | none =>
      have hres := gvp_tier2 cs md w h existing rs ht0 hsc
      have hr1 := next_fst_mem _ ht0OK
      have hr2 := next_fst_mem _ (next_snd_rngOK _ ht0OK)
      have hbx := randomNumber_bounds _ (computeBounds cs w h).minX
        (computeBounds cs w h).maxX hr1.1 hr1.2 hx
      have hby := randomNumber_bounds _ (computeBounds cs w h).minY
        (computeBounds cs w h).maxY hr2.1 hr2.2 hy
      rw [hres]
      exact ⟨hbx.1, hbx.2, hby.1, hby.2⟩

/-- C10 amended-claim witness at realistic bounds (1000×800 viewport,
empty random stream). -/
theorem c10_position_bounds_witness :
    rngOK [] ∧
    (computeBounds 48 1000 800).minX ≤ (computeBounds 48 1000 800).maxX ∧
    (computeBounds 48 1000 800).minY ≤ (computeBounds 48 1000 800).maxY ∧
    (computeBounds 48 1000 800).minX ≤
      (generateValidPosition 48 (288/5) [] 1000 800 []).1.1 :=
  ⟨fun q hq => absurd hq (List.not_mem_nil q),
    by rw [computeBounds]; norm_num,
    by rw [computeBounds]; norm_num,
    (c10_position_bounds 48 (288/5) 1000 800 [] []
      (fun q hq => absurd hq (List.not_mem_nil q))
      (by rw [computeBounds]; norm_num) (by rw [computeBounds]; norm_num)).1⟩

/-- Claim C10, counterexample: At viewport 1001×1001 (inset rectangle
`[1001/8, 7007/8] × [1001/5, 4004/5]`, whose width is not an integer) with
the legitimate `Math.random()` value `0.9999`, the very first random-tier
candidate is accepted at `x = 7009/8 = 876.125 > maxX = 7007/8 = 875.875`:
a returned position lies strictly outside the inset play rectangle. -/
theorem c10_counterexample :
    (computeBounds 48 1001 1001).minX ≤ (computeBounds 48 1001 1001).maxX ∧
    (computeBounds 48 1001 1001).minY ≤ (computeBounds 48 1001 1001).maxY ∧
    rngOK [9999/10000] ∧
    (computeBounds 48 1001 1001).maxX <
      (generateValidPosition 48 (288/5) [] 1001 1001 [9999/10000]).1.1 := by
  have hb : computeBounds 48 1001 1001 =
      { minX := 1001/8, maxX := 7007/8, minY := 1001/5, maxY := 4004/5 } := by
    rw [computeBounds]
    norm_num
  have hrn1 : randomNumber ((9999 : ℚ)/10000) (1001/8) (7007/8) = 7009/8 := by
    rw [randomNumber]
    norm_num
  have hrn2 : randomNumber (0 : ℚ) (1001/5) (4004/5) = 1001/5 := by
    rw [randomNumber]
    norm_num
  have ht : tryRandomAttempts (288/5) (1001/8) (7007/8) (1001/5) (4004/5) [] 100
      [9999/10000] = (some (7009/8, 1001/5), []) := by
    rw [show (100 : ℕ) = 99 + 1 from rfl, tryRandomAttempts]
    simp only [next, wouldOverlap, List.any_nil, Bool.false_eq_true, if_false]
    rw [hrn1, hrn2]
  have ht' : (tryRandomAttempts (288/5) (computeBounds 48 1001 1001).minX
      (computeBounds 48 1001 1001).maxX (computeBounds 48 1001 1001).minY
      (computeBounds 48 1001 1001).maxY [] 100 [9999/10000]).1 =
        some (7009/8, 1001/5) := by
    rw [hb]
    exact congrArg Prod.fst ht
  have hgvp := gvp_tier0 48 (288/5) 1001 1001 [] [9999/10000] (7009/8, 1001/5) ht'
  refine ⟨by rw [hb]; norm_num, by rw [hb]; norm_num, ?_, ?_⟩
  · intro q hq
    rcases List.mem_cons.mp hq with h | h
    · rw [h]; norm_num
    · exact absurd h (List.not_mem_nil q)
  · rw [hgvp, hb]
    norm_num

/-! ## Claim C5: zero-width bounds -/

theorem generateRoundData_target_isSome (alphabet : List Char) (cs md w h : ℚ)
    (rs : List ℚ) (hne : alphabet ≠ []) (hrng : rngOK rs) :
    ((generateRoundData alphabet cs md w h rs).1.2).isSome = true := by
  set circles := (generateRoundData alphabet cs md w h rs).1.1 with hcirc
  have hlen : circles.length = min CIRCLES_PER_ROUND alphabet.length :=
    generateRoundData_length alphabet cs md w h rs
  have hpos : 0 < circles.length := by
    rw [hlen, CIRCLES_PER_ROUND]
    have : 0 < alphabet.length := List.length_pos.mpr hne
    omega
  have hrs2 : rngOK (placeCircles cs md w h
      ((shuffleArray rs alphabet).1.take CIRCLES_PER_ROUND) 0 []
      (shuffleArray rs alphabet).2).2 :=
    placeCircles_rngOK cs md w h _ 0 [] _ (fyAux_rngOK _ _ _ hrng)
  have hr := next_fst_mem _ hrs2
  have hidx : ratFloorNat ((next (placeCircles cs md w h
      ((shuffleArray rs alphabet).1.take CIRCLES_PER_ROUND) 0 []
      (shuffleArray rs alphabet).2).2).1 * (circles.length : ℚ)) < circles.length :=
    ratFloorNat_lt _ _ hr.1 hr.2 hpos
  have htarget : (generateRoundData alphabet cs md w h rs).1.2 =
      (circles.get? (ratFloorNat ((next (placeCircles cs md w h
        ((shuffleArray rs alphabet).1.take CIRCLES_PER_ROUND) 0 []
        (shuffleArray rs alphabet).2).2).1 * (circles.length : ℚ)))).map (·.letter) := by
    rw [hcirc, generateRoundData]
  rw [List.get?_eq_get hidx] at htarget
  rw [htarget]
  rfl

/-- Claim C5, counterexample: With the viewport collapsed to width = height = 0,
placement does not fail: `generateValidPosition` returns the concrete position
`(24, 24)`, and round generation does not fail either — it still builds a
full round of 15 circles with a defined target letter.  There is no
`InvalidBounds` error anywhere in the code. -/
theorem c5_counterexample :
    (generateValidPosition 48 (288/5) [] 0 0 []).1 = (24, 24) ∧
    (generateRoundData LETTERS 48 (288/5) 0 0 []).1.1.length = 15 ∧
    ((generateRoundData LETTERS 48 (288/5) 0 0 []).1.2).isSome = true := by
  refine ⟨?_, ?_, ?_⟩
  · have hb : computeBounds 48 0 0 =
        { minX := 24, maxX := -24, minY := 24, maxY := -24 } := by
      rw [computeBounds]
      norm_num
    have hrn : randomNumber (0 : ℚ) 24 (-24) = 24 := by
      rw [randomNumber]
      norm_num
    have ht : tryRandomAttempts (288/5) 24 (-24) 24 (-24) [] 100 [] =
        (some (24, 24), []) := by
      rw [show (100 : ℕ) = 99 + 1 from rfl, tryRandomAttempts]
      simp only [next, wouldOverlap, List.any_nil, Bool.false_eq_true, if_false]
      rw [hrn]
    have ht' : (tryRandomAttempts (288/5) (computeBounds 48 0 0).minX
        (computeBounds 48 0 0).maxX (computeBounds 48 0 0).minY
        (computeBounds 48 0 0).maxY [] 100 []).1 = some (24, 24) := by
      rw [hb]
      exact congrArg Prod.fst ht
    rw [gvp_tier0 48 (288/5) 0 0 [] [] (24, 24) ht']
  · rw [generateRoundData_length]
    decide
  · exact generateRoundData_target_isSome LETTERS 48 (288/5) 0 0 [] (by decide)
      (fun q hq => absurd hq (List.not_mem_nil q))

/-- Claim C5, amended: When the viewport has no positive width or height the
*initialization guard* skips round generation, so no round is produced and
the state stays idle (unchanged, with no circles and no target letter); but
placement itself never fails — `generateValidPosition` totally returns a
position even at zero bounds, and there is no `InvalidBounds` error. -/
theorem c5_zero_bounds_guard (s : GameState) :
    (¬(0 < s.width ∧ 0 < s.height) → initEffect s = s) ∧
    (∀ (cs md : ℚ) (existing : List Circle) (hh : ℚ) (rs : List ℚ),
      ∃ x y rs', generateValidPosition cs md existing 0 hh rs = ((x, y), rs')) ∧
    (∀ (hh : ℚ) (rng : List ℚ), run (init 0 hh rng) [Ev.effect] = init 0 hh rng) := by
  refine ⟨?_, ?_, ?_⟩
  · intro hg
    rw [initEffect, if_neg]
    intro hc
    exact hg ⟨hc.1, hc.2.1⟩
  · intro cs md existing hh rs
    exact ⟨(generateValidPosition cs md existing 0 hh rs).1.1,
      (generateValidPosition cs md existing 0 hh rs).1.2,
      (generateValidPosition cs md existing 0 hh rs).2, rfl⟩
  · intro hh rng
    rw [run, List.foldl_cons, List.foldl_nil, step, initEffect, if_neg]
    intro hc
    exact lt_irrefl 0 hc.1

/-- C5 amended-claim witness: the zero-size initial state is left untouched
by the initialization effect. -/
theorem c5_zero_bounds_guard_witness :
    ¬(0 < (init 0 0 []).width ∧ 0 < (init 0 0 []).height) ∧
    initEffect (init 0 0 []) = init 0 0 [] :=
  ⟨fun hg => absurd hg.1 (lt_irrefl 0),
    (c5_zero_bounds_guard (init 0 0 [])).1 (fun hg => absurd hg.1 (lt_irrefl 0))⟩

end OhLife
